import Mathlib

/-!
Verification of the image-centering subsystem of PyAbel
(`src/abel/tools/center.py`) against its natural-language specification.

The embedding below translates the Python/numpy code into Lean:

* an image is a shape `(rows, cols)` together with a pixel function
  (values are exact rationals standing for the float image data);
* Python slice semantics (negative indices, clamping) are modelled by
  `pyIdx` / `pySliceStart` / `pySliceStop`;
* Python `int()` (truncation toward zero) is `pyInt`, Python 3 `round()`
  (half-to-even) is `pyRound`, Python `//` on integers is `Int.fdiv`;
* `scipy.ndimage.shift` is an external collaborator (spec section 6); it is
  modelled by `shiftImage` below, see its doc-string.
-/

namespace AbelCenter

/-- An image: a 2D numeric array of shape `rows × cols`.  `px r c` is the
pixel value at row `r`, column `c`; values outside the shape are irrelevant
(every operation defined below reads only in-bounds pixels). -/
structure Image where
  rows : ℕ
  cols : ℕ
  px : ℕ → ℕ → ℚ

/-- Extensional equality of images: same shape and same in-bounds content. -/
def Image.Eq (A B : Image) : Prop :=
  A.rows = B.rows ∧ A.cols = B.cols ∧
    ∀ r, r < A.rows → ∀ c, c < A.cols → A.px r c = B.px r c

instance (A B : Image) : Decidable (A.Eq B) := by
  unfold Image.Eq
  exact inferInstance

/-- Python index normalization for slice bounds on an axis of length `n`:
a negative index counts from the end, and the result is clamped to `[0, n]`. -/
def pyIdx (n : ℕ) (i : ℤ) : ℕ := (min (if i < 0 then i + n else i) (n : ℤ)).toNat

/-- Start bound of a Python slice (`none` = omitted = `0`). -/
def pySliceStart (n : ℕ) : Option ℤ → ℕ
  | none => 0
  | some i => pyIdx n i

/-- Stop bound of a Python slice (`none` = omitted = `n`). -/
def pySliceStop (n : ℕ) : Option ℤ → ℕ
  | none => n
  | some i => pyIdx n i

/-- Row slice `A[l:u, :]` with Python semantics. -/
def Image.sliceRows (A : Image) (l u : Option ℤ) : Image :=
  let s := pySliceStart A.rows l
  let e := pySliceStop A.rows u
  ⟨e - s, A.cols, fun r c => A.px (s + r) c⟩

/-- Column slice `A[:, l:u]` with Python semantics. -/
def Image.sliceCols (A : Image) (l u : Option ℤ) : Image :=
  let s := pySliceStart A.cols l
  let e := pySliceStop A.cols u
  ⟨A.rows, e - s, fun r c => A.px r (s + c)⟩

/-- Zero padding `np.pad(A, ((t, b), (l, r)), 'constant')`. -/
def Image.padConst (A : Image) (t b l r : ℕ) : Image :=
  ⟨t + A.rows + b, l + A.cols + r, fun i j =>
    if t ≤ i ∧ i < t + A.rows ∧ l ≤ j ∧ j < l + A.cols then
      A.px (i - t) (j - l)
    else 0⟩

/-- Pixel lookup at integer coordinates, zero outside the image (the
`mode='constant', cval=0` convention of the interpolation collaborator). -/
def Image.pxZ (A : Image) (i j : ℤ) : ℚ :=
  if 0 ≤ i ∧ i < A.rows ∧ 0 ≤ j ∧ j < A.cols then A.px i.toNat j.toNat else 0

/-- Modelled from the spec: the shift/interpolation collaborator
`scipy.ndimage.shift` is external to this repository; spec section 6 fixes
its contract (input array, per-axis real shift, same output shape, zero fill
for exposed regions).  The model realizes this contract in exact arithmetic
with separable (bilinear) interpolation: output pixel `(r, c)` is the
interpolated value of the input at `(r - s0, c - s1)`. -/
def shiftImage (A : Image) (s0 s1 : ℚ) : Image :=
  ⟨A.rows, A.cols, fun r c =>
    let y : ℚ := (r : ℚ) - s0
    let x : ℚ := (c : ℚ) - s1
    let i : ℤ := ⌊y⌋
    let j : ℤ := ⌊x⌋
    let ty : ℚ := y - (i : ℚ)
    let tx : ℚ := x - (j : ℚ)
    (1 - ty) * (1 - tx) * A.pxZ i j + (1 - ty) * tx * A.pxZ i (j + 1) +
      ty * (1 - tx) * A.pxZ (i + 1) j + ty * tx * A.pxZ (i + 1) (j + 1)⟩

/-- Python `int()`: truncation toward zero. -/
def pyInt (q : ℚ) : ℤ := if q < 0 then ⌈q⌉ else ⌊q⌋

/-- Python 3 `round()`: round half to even. -/
def pyRound (q : ℚ) : ℤ :=
  let f := ⌊q⌋
  let r := q - (f : ℚ)
  if r < 1/2 then f else if 1/2 < r then f + 1 else if f % 2 = 0 then f else f + 1

/-- The three crop policies of `set_center` (`center.py`, lines 180–194). -/
inductive Crop
  | maintain_size
  | valid_region
  | maintain_data
deriving DecidableEq

/-- Per-axis state after the origin preprocessing loop of `set_center`
(`center.py`, lines 230–245): `given` records whether the coordinate was
specified (not `None`); `g` is the integer origin part, `sub` the fractional
remainder, `m` the complement `shape - 1 - g` from the other edge, and `act`
whether the axis participates in centering (in the axes set and specified).
For an unspecified coordinate the numeric fields are unused and zero
(the source keeps `None` there; every later read is guarded by `act`,
and `sub` is exactly the source's `subpixel` entry, initialized to 0). -/
structure NormAxis where
  given : Bool
  g : ℤ
  sub : ℚ
  m : ℤ
  act : Bool

/-- Conversion of a coordinate to absolute (`center.py`, lines 235–236):
a negative coordinate counts from the far edge of an axis of length `n`. -/
def normCoord (n : ℕ) (x0 : ℚ) : ℚ := if x0 < 0 then x0 + (n : ℚ) else x0

/-- Axis preprocessing, one axis of `center.py` lines 230–245: convert a
negative coordinate to absolute, then split integer/fractional parts when
`order ≠ 0`, else round to whole pixels. -/
def normAxis (order : ℕ) (n : ℕ) (inAxes : Bool) : Option ℚ → NormAxis
  | none => ⟨false, 0, 0, 0, false⟩
  | some x0 =>
    if order ≠ 0 then
      ⟨true, pyInt (normCoord n x0), normCoord n x0 - (pyInt (normCoord n x0) : ℚ),
        (n : ℤ) - 1 - pyInt (normCoord n x0), inAxes⟩
    else
      ⟨true, pyRound (normCoord n x0), 0, (n : ℤ) - 1 - pyRound (normCoord n x0),
        inAxes⟩

/-- The whole origin preprocessing of `set_center` (`center.py`, lines
224–248): normalize both axes and compute the effective interpolation order,
which drops to 0 when every entry of `subpixel` is zero. -/
def scNorm (n0 n1 : ℕ) (o0 o1 : Option ℚ) (axes : List ℕ) (order : ℕ) :
    NormAxis × NormAxis × ℕ :=
  let a0 := normAxis order n0 (axes.contains 0) o0
  let a1 := normAxis order n1 (axes.contains 1) o1
  (a0, a1, if a0.sub = 0 ∧ a1.sub = 0 then 0 else order)

/-- Indices of array center, `center_of` in `set_center` (`center.py`,
lines 214–216): `(np.array(a.shape) - 1) // 2` per axis, with numpy's
(floor) integer division. -/
def center_of (n : ℕ) : ℤ := Int.fdiv ((n : ℤ) - 1) 2

/-- Whole-pixel `maintain_size` path (`center.py`, lines 264–276): copy the
overlapping region of the source into a zero output, offset by `delta` per
axis (`dpos = max 0 delta`, `dneg = max 0 (-delta)`; destination region
`[dpos, n - dneg)`, source region `[dneg, n - dpos)`).  Inactive axes have
`delta = 0`, for which the regions reduce to the source's full `slice(None)`.
(For origins shifted past the image size numpy would raise a broadcasting
error on the region assignment; the claims below are stated for origins
within the image, where the regions agree and this definition matches.) -/
def msWhole (data : Image) (d0 d1 : ℤ) : Image :=
  ⟨data.rows, data.cols, fun r c =>
    if d0.toNat ≤ r ∧ r < data.rows - (-d0).toNat ∧
        d1.toNat ≤ c ∧ c < data.cols - (-d1).toNat then
      data.px (r - d0.toNat + (-d0).toNat) (c - d1.toNat + (-d1).toNat)
    else 0⟩

/-- Fractional `maintain_size` path (`center.py`, lines 258–263): pad by one
zero pixel on every side, shift with interpolation, crop the border back. -/
def msFrac (data : Image) (d0 d1 : ℚ) : Image :=
  ((shiftImage (data.padConst 1 1 1 1) d0 d1).sliceRows (some 1)
      (some (-1))).sliceCols (some 1) (some (-1))

/-- Lower bound of the per-axis cut of the pre-shift (`center.py`,
lines 291–301): a fractional axis loses both fractional ends under
`valid_region` and nothing under `maintain_data`; a non-fractional axis
loses the empty leading pixel. -/
def preCutLo (crop : Crop) (s : ℚ) : Option ℤ :=
  if s ≠ 0 then (if crop = Crop.valid_region then some 1 else none) else some 1

/-- Upper bound of the per-axis cut of the pre-shift (`center.py`,
lines 291–301); `preCutLo` above is the lower bound. -/
def preCutHi (crop : Crop) (s : ℚ) : Option ℤ :=
  if s ≠ 0 then (if crop = Crop.valid_region then some (-1) else none) else none

/-- Sub-pixel pre-shift for the `valid_region`/`maintain_data` policies
(`center.py`, lines 284–302): pad by one zero pixel, shift by `-subpixel`,
drop the trailing padding row/column (`[:-1, :-1]`), then apply the per-axis
cut `preCutLo`/`preCutHi`. -/
def preShift (data : Image) (crop : Crop) (s0 s1 : ℚ) : Image :=
  let sh := ((shiftImage (data.padConst 1 1 1 1) (-s0) (-s1)).sliceRows none
      (some (-1))).sliceCols none (some (-1))
  (sh.sliceRows (preCutLo crop s0) (preCutHi crop s0)).sliceCols
    (preCutLo crop s1) (preCutHi crop s1)

/-- `valid_region` crop (`center.py`, lines 303–314): on each active axis,
with `d = min(origin, mirror)` the distance to the closest edge, keep the
symmetric slice `[origin - d : origin + d + 1]`; inactive axes keep the full
`slice(None)`.  The final `.copy()` of the source is value-level identity
here. -/
def vrLo (a : Bool) (g m : ℤ) : Option ℤ :=
  if a then some (g - min g m) else none

/-- Upper slice bound of the `valid_region` crop on one axis (`vrLo` above is
the lower bound). -/
def vrHi (a : Bool) (g m : ℤ) : Option ℤ :=
  if a then some (g + min g m + 1) else none

/-- Assembled `valid_region` crop (`center.py`, lines 303–314). -/
def vrCrop (data : Image) (a0 a1 : Bool) (g0 m0 g1 m1 : ℤ) : Image :=
  (data.sliceRows (vrLo a0 g0 m0) (vrHi a0 g0 m0)).sliceCols
    (vrLo a1 g1 m1) (vrHi a1 g1 m1)

/-- `maintain_data` pad (`center.py`, lines 315–326): on each active axis,
with `d = max(origin, mirror)` the distance to the farthest edge, zero-pad by
`(d - origin, d - mirror)` to symmetrize around the origin (both amounts are
nonnegative, so `Int.toNat` is exact). -/
def mdLo (a : Bool) (g m : ℤ) : ℕ :=
  if a then (max g m - g).toNat else 0

/-- Trailing pad amount of the `maintain_data` policy on one axis (`mdLo`
above is the leading amount). -/
def mdHi (a : Bool) (g m : ℤ) : ℕ :=
  if a then (max g m - m).toNat else 0

/-- Assembled `maintain_data` pad (`center.py`, lines 315–326). -/
def mdPad (data : Image) (a0 a1 : Bool) (g0 m0 g1 m1 : ℤ) : Image :=
  data.padConst (mdLo a0 g0 m0) (mdHi a0 g0 m0) (mdLo a1 g1 m1) (mdHi a1 g1 m1)

/-- `set_center` (`center.py`, lines 163–328): move the image origin to the
image midpoint under the given crop policy, active axes, and interpolation
order.  Coordinates set to `none` are ignored.  The deprecated `center`
keyword and `verbose` printing are omitted (they do not affect the result). -/
def set_center (data : Image) (o0 o1 : Option ℚ) (crop : Crop)
    (axes : List ℕ) (order : ℕ) : Image :=
  let n0 := data.rows
  let n1 := data.cols
  let nm := scNorm n0 n1 o0 o1 axes order
  let a0 := nm.1
  let a1 := nm.2.1
  let ord := nm.2.2
  match crop with
  | Crop.maintain_size =>
    if ord ≠ 0 then
      msFrac data
        (if a0.act then (center_of n0 : ℚ) - ((a0.g : ℚ) + a0.sub) else 0)
        (if a1.act then (center_of n1 : ℚ) - ((a1.g : ℚ) + a1.sub) else 0)
    else
      msWhole data
        (if a0.act then center_of n0 - a0.g else 0)
        (if a1.act then center_of n1 - a1.g else 0)
  | Crop.valid_region =>
    if ord ≠ 0 then
      vrCrop (preShift data Crop.valid_region a0.sub a1.sub) a0.act a1.act
        a0.g (if a0.sub ≠ 0 then a0.m - 1 else a0.m)
        a1.g (if a1.sub ≠ 0 then a1.m - 1 else a1.m)
    else
      vrCrop data a0.act a1.act a0.g a0.m a1.g a1.m
  | Crop.maintain_data =>
    if ord ≠ 0 then
      mdPad (preShift data Crop.maintain_data a0.sub a1.sub) a0.act a1.act
        (if a0.sub ≠ 0 then a0.g + 1 else a0.g) a0.m
        (if a1.sub ≠ 0 then a1.g + 1 else a1.g) a1.m
    else
      mdPad data a0.act a1.act a0.g a0.m a1.g a1.m

/-- Preprocessing stage of `center_image` (`center.py`, lines 125–150):
optional odd-sizing (drop the rightmost column when the column count is
even) and squaring (trim the longer dimension). -/
def preprocess (IM0 : Image) (odd_size square : Bool) : Image :=
  let IM := if odd_size ∧ IM0.cols % 2 = 0 then IM0.sliceCols none (some (-1))
    else IM0
  if square ∧ IM.rows ≠ IM.cols then
    if IM.rows > IM.cols then
      let diff := IM.rows - IM.cols
      let trim := diff / 2
      let IM2 := if trim > 0 then IM.sliceRows (some (trim : ℤ)) (some (-(trim : ℤ)))
        else IM
      if diff % 2 = 1 then IM2.sliceRows none (some (-1)) else IM2
    else
      let IM2 := if odd_size ∧ IM.rows % 2 = 0 then IM.sliceRows none (some (-1))
        else IM
      let xs := (IM2.cols - IM2.rows) / 2
      IM2.sliceCols (some (xs : ℤ)) (some (-(xs : ℤ)))
  else IM

/-- `center_image` (`center.py`, lines 55–160) on the coordinate-pair method
path: preprocess, then hand the given origin to `set_center` (which is called
with its default interpolation order 3). -/
def center_image (IM : Image) (o0 o1 : Option ℚ) (odd_size square : Bool)
    (axes : List ℕ) (crop : Crop) : Image :=
  set_center (preprocess IM odd_size square) o0 o1 crop axes 3

/-- `find_origin_by_center_of_image` (`center.py`, lines 407–422):
`(rows // 2, cols // 2)`. -/
def find_origin_by_center_of_image (data : Image) : ℕ × ℕ :=
  (data.rows / 2, data.cols / 2)

/-- Half-integer center used by the slice extractor `axis_slices`
(`center.py`, lines 487–488): `n // 2 + n % 2`. -/
def axisSlicesCenter (n : ℕ) : ℕ := n / 2 + n % 2

/-- Modelled from the spec: the bounded 1D minimizer (`scipy.optimize
.minimize`) is external to this repository; spec section 6 fixes its
interface as a result carrying a success flag and the minimizing scalar. -/
structure FitResult where
  success : Bool
  x : ℚ
deriving DecidableEq

/-- Error payload of the `RuntimeError` raised by `find_origin_by_slice`:
the failing axis (named in the message) and the minimizer's diagnostic
result (`center.py`, lines 568 and 577). -/
structure SliceFitError where
  axis : ℕ
  fit : FitResult
deriving DecidableEq

/-- `find_origin_by_slice` (`center.py`, lines 505–582), parameterized by the
responses `fit0`/`fit1` of the external bounded minimizer for the vertical
and horizontal alignment problems: check axis 0 first, then axis 1; on a
reported failure raise immediately, otherwise return
`(rows // 2 - xyoffset0, cols // 2 - xyoffset1)` with `xyoffset = -x / 2` on
each requested axis and `0.0` on an unrequested axis. -/
def find_origin_by_slice (IM : Image) (axis : List ℕ) (fit0 fit1 : FitResult) :
    Except SliceFitError (ℚ × ℚ) :=
  let r2 : ℕ := IM.rows / 2
  let c2 : ℕ := IM.cols / 2
  match (if axis.contains 0 then
      (if fit0.success then Except.ok (-fit0.x / 2) else Except.error ⟨0, fit0⟩)
    else Except.ok 0 : Except SliceFitError ℚ) with
  | Except.error e => Except.error e
  | Except.ok off0 =>
    match (if axis.contains 1 then
        (if fit1.success then Except.ok (-fit1.x / 2) else Except.error ⟨1, fit1⟩)
      else Except.ok 0 : Except SliceFitError ℚ) with
    | Except.error e => Except.error e
    | Except.ok off1 => Except.ok ((r2 : ℚ) - off0, (c2 : ℚ) - off1)

/-- Concrete test image with pairwise distinct pixel values, used by the
witness and counterexample instances below. -/
def probeImg (r c : ℕ) : Image := ⟨r, c, fun i j => ((i * 100 + j : ℕ) : ℚ)⟩

/-- Effective interpolation order used by `set_center` after the preprocessing
of `center.py` lines 237–248 (the `order = 0` downgrade included). -/
def effOrder (n0 n1 : ℕ) (o0 o1 : Option ℚ) (axes : List ℕ) (order : ℕ) : ℕ :=
  (scNorm n0 n1 o0 o1 axes order).2.2

/-- Whole-pixel shift of the `maintain_size` policy on axis 0
(`center.py`, line 268): `delta[a] = center[a] - origin[a]` on an active
axis, `0` otherwise. -/
def scDelta0 (A : Image) (o0 o1 : Option ℚ) (axes : List ℕ) (order : ℕ) : ℤ :=
  if (scNorm A.rows A.cols o0 o1 axes order).1.act then
    center_of A.rows - (scNorm A.rows A.cols o0 o1 axes order).1.g
  else 0

/-- Whole-pixel shift of the `maintain_size` policy on axis 1
(`center.py`, line 268). -/
def scDelta1 (A : Image) (o0 o1 : Option ℚ) (axes : List ℕ) (order : ℕ) : ℤ :=
  if (scNorm A.rows A.cols o0 o1 axes order).2.1.act then
    center_of A.cols - (scNorm A.rows A.cols o0 o1 axes order).2.1.g
  else 0

/-- Fractional remainder of a specified origin coordinate after conversion to
absolute, as computed by `int(origin[a])` splitting (`center.py`,
lines 238–240). -/
def pyFrac (n : ℕ) (x0 : ℚ) : ℚ := normCoord n x0 - (pyInt (normCoord n x0) : ℚ)

/-- The proposition that an origin coordinate (if specified) has zero
fractional remainder on an axis of length `n`. -/
def fracZero (n : ℕ) : Option ℚ → Prop
  | none => True
  | some x0 => pyFrac n x0 = 0

instance (n : ℕ) (o : Option ℚ) : Decidable (fracZero n o) := by
  cases o <;> simp only [fracZero] <;> infer_instance

/- ### Basic lemmas about the embedding primitives -/

theorem pyIdx_of_nonneg_le {n : ℕ} {i : ℤ} (h0 : 0 ≤ i) (h1 : i ≤ (n : ℤ)) :
    pyIdx n i = i.toNat := by
  unfold pyIdx
  rw [if_neg (by omega)]
  omega

theorem pyIdx_of_neg {n : ℕ} {i : ℤ} (h0 : i < 0) (h1 : 0 ≤ i + (n : ℤ)) :
    pyIdx n i = (i + (n : ℤ)).toNat := by
  unfold pyIdx
  rw [if_pos h0]
  omega

@[simp] theorem pySliceStart_none (n : ℕ) : pySliceStart n none = 0 := rfl

@[simp] theorem pySliceStop_none (n : ℕ) : pySliceStop n none = n := rfl

@[simp] theorem pySliceStart_some (n : ℕ) (i : ℤ) :
    pySliceStart n (some i) = pyIdx n i := rfl

@[simp] theorem pySliceStop_some (n : ℕ) (i : ℤ) :
    pySliceStop n (some i) = pyIdx n i := rfl

@[simp] theorem Image.sliceRows_cols (A : Image) (l u : Option ℤ) :
    (A.sliceRows l u).cols = A.cols := rfl

@[simp] theorem Image.sliceCols_rows (A : Image) (l u : Option ℤ) :
    (A.sliceCols l u).rows = A.rows := rfl

theorem Image.sliceRows_rows (A : Image) (l u : Option ℤ) :
    (A.sliceRows l u).rows = pySliceStop A.rows u - pySliceStart A.rows l := rfl

theorem Image.sliceCols_cols (A : Image) (l u : Option ℤ) :
    (A.sliceCols l u).cols = pySliceStop A.cols u - pySliceStart A.cols l := rfl

theorem Image.sliceRows_px (A : Image) (l u : Option ℤ) (r c : ℕ) :
    (A.sliceRows l u).px r c = A.px (pySliceStart A.rows l + r) c := rfl

theorem Image.sliceCols_px (A : Image) (l u : Option ℤ) (r c : ℕ) :
    (A.sliceCols l u).px r c = A.px r (pySliceStart A.cols l + c) := rfl

@[simp] theorem Image.padConst_rows (A : Image) (t b l r : ℕ) :
    (A.padConst t b l r).rows = t + A.rows + b := rfl

@[simp] theorem Image.padConst_cols (A : Image) (t b l r : ℕ) :
    (A.padConst t b l r).cols = l + A.cols + r := rfl

theorem Image.padConst_px (A : Image) (t b l r : ℕ) (i j : ℕ) :
    (A.padConst t b l r).px i j =
      if t ≤ i ∧ i < t + A.rows ∧ l ≤ j ∧ j < l + A.cols then
        A.px (i - t) (j - l)
      else 0 := rfl

@[simp] theorem shiftImage_rows (A : Image) (s0 s1 : ℚ) :
    (shiftImage A s0 s1).rows = A.rows := rfl

@[simp] theorem shiftImage_cols (A : Image) (s0 s1 : ℚ) :
    (shiftImage A s0 s1).cols = A.cols := rfl

theorem pyInt_natCast (k : ℕ) : pyInt (k : ℚ) = (k : ℤ) := by
  unfold pyInt
  rw [if_neg (not_lt.mpr (by positivity)), Int.floor_natCast]

theorem pyRound_natCast (k : ℕ) : pyRound (k : ℚ) = (k : ℤ) := by
  unfold pyRound
  rw [Int.floor_natCast]
  norm_num

theorem normCoord_of_nonneg {n : ℕ} {x : ℚ} (h : 0 ≤ x) : normCoord n x = x :=
  if_neg (not_lt.mpr h)

theorem normAxis_natCast (order : ℕ) (n : ℕ) (inAxes : Bool) (k : ℕ) :
    normAxis order n inAxes (some (k : ℚ)) =
      ⟨true, (k : ℤ), 0, (n : ℤ) - 1 - (k : ℤ), inAxes⟩ := by
  have hnc : normCoord n (k : ℚ) = (k : ℚ) := normCoord_of_nonneg (by positivity)
  simp only [normAxis, hnc, pyInt_natCast, pyRound_natCast]
  split <;> simp

theorem normAxis_some_of_order_ne (order n : ℕ) (b : Bool) (x : ℚ)
    (h : order ≠ 0) :
    normAxis order n b (some x) =
      ⟨true, pyInt (normCoord n x), pyFrac n x,
        (n : ℤ) - 1 - pyInt (normCoord n x), b⟩ := by
  simp only [normAxis, if_pos h]
  rfl

theorem normAxis_sub (order n : ℕ) (b : Bool) (o : Option ℚ) :
    (normAxis order n b o).sub =
      if order = 0 then 0 else o.elim 0 (fun x => pyFrac n x) := by
  cases o <;> by_cases ho : order = 0 <;> simp [normAxis, ho, pyFrac]

theorem scNorm_natCast (n0 n1 : ℕ) (k0 k1 : ℕ) (axes : List ℕ) (order : ℕ) :
    scNorm n0 n1 (some (k0 : ℚ)) (some (k1 : ℚ)) axes order =
      (⟨true, (k0 : ℤ), 0, (n0 : ℤ) - 1 - (k0 : ℤ), axes.contains 0⟩,
       ⟨true, (k1 : ℤ), 0, (n1 : ℤ) - 1 - (k1 : ℤ), axes.contains 1⟩, 0) := by
  simp [scNorm, normAxis_natCast]

theorem center_of_succ (m : ℕ) : center_of (m + 1) = ((m / 2 : ℕ) : ℤ) := by
  unfold center_of
  have e : ((m + 1 : ℕ) : ℤ) - 1 = ((m : ℕ) : ℤ) := by push_cast; ring
  rw [e]
  exact_mod_cast (Int.ofNat_fdiv m 2).symm

/- ### Reduction of `set_center` at whole-pixel (integer) origins -/

theorem set_center_natCast_ms (data : Image) (k0 k1 : ℕ) (axes : List ℕ)
    (order : ℕ) :
    set_center data (some (k0 : ℚ)) (some (k1 : ℚ)) Crop.maintain_size axes
        order =
      msWhole data
        (if axes.contains 0 then center_of data.rows - (k0 : ℤ) else 0)
        (if axes.contains 1 then center_of data.cols - (k1 : ℤ) else 0) := by
  simp [set_center, scNorm_natCast]

theorem set_center_natCast_vr (data : Image) (k0 k1 : ℕ) (axes : List ℕ)
    (order : ℕ) :
    set_center data (some (k0 : ℚ)) (some (k1 : ℚ)) Crop.valid_region axes
        order =
      vrCrop data (axes.contains 0) (axes.contains 1)
        (k0 : ℤ) ((data.rows : ℤ) - 1 - (k0 : ℤ))
        (k1 : ℤ) ((data.cols : ℤ) - 1 - (k1 : ℤ)) := by
  simp [set_center, scNorm_natCast]

theorem set_center_natCast_md (data : Image) (k0 k1 : ℕ) (axes : List ℕ)
    (order : ℕ) :
    set_center data (some (k0 : ℚ)) (some (k1 : ℚ)) Crop.maintain_data axes
        order =
      mdPad data (axes.contains 0) (axes.contains 1)
        (k0 : ℤ) ((data.rows : ℤ) - 1 - (k0 : ℤ))
        (k1 : ℤ) ((data.cols : ℤ) - 1 - (k1 : ℤ)) := by
  simp [set_center, scNorm_natCast]

/- ### Content of the whole-pixel paths -/

theorem msWhole_px (A : Image) (d0 d1 : ℤ) (r c : ℕ) (hr : r < A.rows)
    (hc : c < A.cols) :
    (msWhole A d0 d1).px r c =
      if 0 ≤ (r : ℤ) - d0 ∧ (r : ℤ) - d0 < (A.rows : ℤ) ∧
          0 ≤ (c : ℤ) - d1 ∧ (c : ℤ) - d1 < (A.cols : ℤ) then
        A.px ((r : ℤ) - d0).toNat ((c : ℤ) - d1).toNat
      else 0 := by
  have base : (msWhole A d0 d1).px r c =
      if d0.toNat ≤ r ∧ r < A.rows - (-d0).toNat ∧
          d1.toNat ≤ c ∧ c < A.cols - (-d1).toNat then
        A.px (r - d0.toNat + (-d0).toNat) (c - d1.toNat + (-d1).toNat)
      else 0 := rfl
  rw [base]
  by_cases h : 0 ≤ (r : ℤ) - d0 ∧ (r : ℤ) - d0 < (A.rows : ℤ) ∧
      0 ≤ (c : ℤ) - d1 ∧ (c : ℤ) - d1 < (A.cols : ℤ)
  · rw [if_pos (by omega), if_pos h]
    have e0 : r - d0.toNat + (-d0).toNat = ((r : ℤ) - d0).toNat := by omega
    have e1 : c - d1.toNat + (-d1).toNat = ((c : ℤ) - d1).toNat := by omega
    rw [e0, e1]
  · rw [if_neg (by omega), if_neg h]

@[simp] theorem msWhole_rows (A : Image) (d0 d1 : ℤ) :
    (msWhole A d0 d1).rows = A.rows := rfl

@[simp] theorem msWhole_cols (A : Image) (d0 d1 : ℤ) :
    (msWhole A d0 d1).cols = A.cols := rfl

theorem vrCrop_rows (A : Image) (a0 a1 : Bool) (k0 k1 : ℕ) (h0 : k0 < A.rows) :
    (vrCrop A a0 a1 (k0 : ℤ) ((A.rows : ℤ) - 1 - k0)
        (k1 : ℤ) ((A.cols : ℤ) - 1 - k1)).rows =
      if a0 then 2 * min k0 (A.rows - 1 - k0) + 1 else A.rows := by
  cases a0 with
  | false => simp [vrCrop, Image.sliceRows_rows, vrLo, vrHi]
  | true =>
    have e1 : pyIdx A.rows ((k0 : ℤ) - min (k0 : ℤ) ((A.rows : ℤ) - 1 - k0)) =
        k0 - min k0 (A.rows - 1 - k0) := by
      rw [pyIdx_of_nonneg_le (by omega) (by omega)]
      omega
    have e2 : pyIdx A.rows ((k0 : ℤ) + min (k0 : ℤ) ((A.rows : ℤ) - 1 - k0) + 1) =
        k0 + min k0 (A.rows - 1 - k0) + 1 := by
      rw [pyIdx_of_nonneg_le (by omega) (by omega)]
      omega
    simp [vrCrop, Image.sliceRows_rows, vrLo, vrHi, e1, e2]
    omega

theorem vrCrop_cols (A : Image) (a0 a1 : Bool) (k0 k1 : ℕ) (h1 : k1 < A.cols) :
    (vrCrop A a0 a1 (k0 : ℤ) ((A.rows : ℤ) - 1 - k0)
        (k1 : ℤ) ((A.cols : ℤ) - 1 - k1)).cols =
      if a1 then 2 * min k1 (A.cols - 1 - k1) + 1 else A.cols := by
  cases a1 with
  | false => simp [vrCrop, Image.sliceCols_cols, vrLo, vrHi]
  | true =>
    have e1 : pyIdx A.cols ((k1 : ℤ) - min (k1 : ℤ) ((A.cols : ℤ) - 1 - k1)) =
        k1 - min k1 (A.cols - 1 - k1) := by
      rw [pyIdx_of_nonneg_le (by omega) (by omega)]
      omega
    have e2 : pyIdx A.cols ((k1 : ℤ) + min (k1 : ℤ) ((A.cols : ℤ) - 1 - k1) + 1) =
        k1 + min k1 (A.cols - 1 - k1) + 1 := by
      rw [pyIdx_of_nonneg_le (by omega) (by omega)]
      omega
    simp [vrCrop, Image.sliceCols_cols, vrLo, vrHi, e1, e2]
    omega

theorem vrCrop_px (A : Image) (a0 a1 : Bool) (k0 k1 : ℕ) (h0 : k0 < A.rows)
    (h1 : k1 < A.cols) (r c : ℕ) :
    (vrCrop A a0 a1 (k0 : ℤ) ((A.rows : ℤ) - 1 - k0)
        (k1 : ℤ) ((A.cols : ℤ) - 1 - k1)).px r c =
      A.px ((if a0 then k0 - min k0 (A.rows - 1 - k0) else 0) + r)
        ((if a1 then k1 - min k1 (A.cols - 1 - k1) else 0) + c) := by
  have e0 : pySliceStart A.rows (vrLo a0 (k0 : ℤ) ((A.rows : ℤ) - 1 - k0)) =
      if a0 then k0 - min k0 (A.rows - 1 - k0) else 0 := by
    cases a0 with
    | false => simp [vrLo]
    | true =>
      simp only [vrLo, if_true, pySliceStart_some]
      rw [pyIdx_of_nonneg_le (by omega) (by omega)]
      omega
  have e1 : pySliceStart A.cols (vrLo a1 (k1 : ℤ) ((A.cols : ℤ) - 1 - k1)) =
      if a1 then k1 - min k1 (A.cols - 1 - k1) else 0 := by
    cases a1 with
    | false => simp [vrLo]
    | true =>
      simp only [vrLo, if_true, pySliceStart_some]
      rw [pyIdx_of_nonneg_le (by omega) (by omega)]
      omega
  show ((A.sliceRows _ _).sliceCols _ _).px r c = _
  rw [Image.sliceCols_px, Image.sliceRows_px]
  rw [show pySliceStart (A.sliceRows (vrLo a0 (k0 : ℤ) ((A.rows : ℤ) - 1 - k0))
        (vrHi a0 (k0 : ℤ) ((A.rows : ℤ) - 1 - k0))).cols
        (vrLo a1 (k1 : ℤ) ((A.cols : ℤ) - 1 - k1)) =
      pySliceStart A.cols (vrLo a1 (k1 : ℤ) ((A.cols : ℤ) - 1 - k1)) from rfl]
  rw [e0, e1]

theorem mdPad_rows (A : Image) (a0 a1 : Bool) (k0 k1 : ℕ) (h0 : k0 < A.rows) :
    (mdPad A a0 a1 (k0 : ℤ) ((A.rows : ℤ) - 1 - k0)
        (k1 : ℤ) ((A.cols : ℤ) - 1 - k1)).rows =
      if a0 then 2 * max k0 (A.rows - 1 - k0) + 1 else A.rows := by
  cases a0 with
  | false => simp [mdPad, mdLo, mdHi]
  | true =>
    simp [mdPad, mdLo, mdHi]
    omega

theorem mdPad_cols (A : Image) (a0 a1 : Bool) (k0 k1 : ℕ) (h1 : k1 < A.cols) :
    (mdPad A a0 a1 (k0 : ℤ) ((A.rows : ℤ) - 1 - k0)
        (k1 : ℤ) ((A.cols : ℤ) - 1 - k1)).cols =
      if a1 then 2 * max k1 (A.cols - 1 - k1) + 1 else A.cols := by
  cases a1 with
  | false => simp [mdPad, mdLo, mdHi]
  | true =>
    simp [mdPad, mdLo, mdHi]
    omega

theorem mdPad_px (A : Image) (a0 a1 : Bool) (k0 k1 : ℕ) (h0 : k0 < A.rows)
    (h1 : k1 < A.cols) (r c : ℕ) :
    (mdPad A a0 a1 (k0 : ℤ) ((A.rows : ℤ) - 1 - k0)
        (k1 : ℤ) ((A.cols : ℤ) - 1 - k1)).px r c =
      if (if a0 then max k0 (A.rows - 1 - k0) - k0 else 0) ≤ r ∧
          r < (if a0 then max k0 (A.rows - 1 - k0) - k0 else 0) + A.rows ∧
          (if a1 then max k1 (A.cols - 1 - k1) - k1 else 0) ≤ c ∧
          c < (if a1 then max k1 (A.cols - 1 - k1) - k1 else 0) + A.cols then
        A.px (r - (if a0 then max k0 (A.rows - 1 - k0) - k0 else 0))
          (c - (if a1 then max k1 (A.cols - 1 - k1) - k1 else 0))
      else 0 := by
  have eLo0 : mdLo a0 (k0 : ℤ) ((A.rows : ℤ) - 1 - k0) =
      if a0 then max k0 (A.rows - 1 - k0) - k0 else 0 := by
    cases a0 <;> simp [mdLo] <;> omega
  have eLo1 : mdLo a1 (k1 : ℤ) ((A.cols : ℤ) - 1 - k1) =
      if a1 then max k1 (A.cols - 1 - k1) - k1 else 0 := by
    cases a1 <;> simp [mdLo] <;> omega
  show (A.padConst _ _ _ _).px r c = _
  rw [Image.padConst_px, eLo0, eLo1]

@[simp] theorem msFrac_rows (A : Image) (d0 d1 : ℚ) :
    (msFrac A d0 d1).rows = A.rows := by
  have e1 : pyIdx (1 + A.rows + 1) 1 = 1 := by
    rw [pyIdx_of_nonneg_le (by omega) (by omega)]
    omega
  have e2 : pyIdx (1 + A.rows + 1) (-1) = A.rows + 1 := by
    rw [pyIdx_of_neg (by omega) (by omega)]
    omega
  simp [msFrac, Image.sliceRows_rows, e1, e2]

@[simp] theorem msFrac_cols (A : Image) (d0 d1 : ℚ) :
    (msFrac A d0 d1).cols = A.cols := by
  have e1 : pyIdx (1 + A.cols + 1) 1 = 1 := by
    rw [pyIdx_of_nonneg_le (by omega) (by omega)]
    omega
  have e2 : pyIdx (1 + A.cols + 1) (-1) = A.cols + 1 := by
    rw [pyIdx_of_neg (by omega) (by omega)]
    omega
  simp [msFrac, Image.sliceCols_cols, e1, e2]

/-- Reduction of `set_center` under the `maintain_size` policy to the two
shift paths. -/
theorem set_center_ms (A : Image) (o0 o1 : Option ℚ) (axes : List ℕ)
    (order : ℕ) :
    set_center A o0 o1 Crop.maintain_size axes order =
      if effOrder A.rows A.cols o0 o1 axes order ≠ 0 then
        msFrac A
          (if (scNorm A.rows A.cols o0 o1 axes order).1.act then
            (center_of A.rows : ℚ) -
              (((scNorm A.rows A.cols o0 o1 axes order).1.g : ℚ) +
                (scNorm A.rows A.cols o0 o1 axes order).1.sub)
          else 0)
          (if (scNorm A.rows A.cols o0 o1 axes order).2.1.act then
            (center_of A.cols : ℚ) -
              (((scNorm A.rows A.cols o0 o1 axes order).2.1.g : ℚ) +
                (scNorm A.rows A.cols o0 o1 axes order).2.1.sub)
          else 0)
      else
        msWhole A (scDelta0 A o0 o1 axes order) (scDelta1 A o0 o1 axes order) := rfl

/- ### Column/row congruence machinery for inactive axes -/

theorem pyIdx_le (n : ℕ) (i : ℤ) : pyIdx n i ≤ n := by
  unfold pyIdx
  omega

theorem pySliceStop_le (n : ℕ) (u : Option ℤ) : pySliceStop n u ≤ n := by
  cases u with
  | none => exact le_refl n
  | some i => exact pyIdx_le n i

/-- Closed form of one interpolated output pixel (bilinear weights over the
four surrounding integer positions). -/
theorem shiftImage_px (X : Image) (s0 s1 : ℚ) (r c : ℕ) :
    (shiftImage X s0 s1).px r c =
      (1 - (((r : ℚ) - s0) - (⌊(r : ℚ) - s0⌋ : ℚ))) *
          (1 - (((c : ℚ) - s1) - (⌊(c : ℚ) - s1⌋ : ℚ))) *
          X.pxZ ⌊(r : ℚ) - s0⌋ ⌊(c : ℚ) - s1⌋ +
        (1 - (((r : ℚ) - s0) - (⌊(r : ℚ) - s0⌋ : ℚ))) *
          (((c : ℚ) - s1) - (⌊(c : ℚ) - s1⌋ : ℚ)) *
          X.pxZ ⌊(r : ℚ) - s0⌋ (⌊(c : ℚ) - s1⌋ + 1) +
        (((r : ℚ) - s0) - (⌊(r : ℚ) - s0⌋ : ℚ)) *
          (1 - (((c : ℚ) - s1) - (⌊(c : ℚ) - s1⌋ : ℚ))) *
          X.pxZ (⌊(r : ℚ) - s0⌋ + 1) ⌊(c : ℚ) - s1⌋ +
        (((r : ℚ) - s0) - (⌊(r : ℚ) - s0⌋ : ℚ)) *
          (((c : ℚ) - s1) - (⌊(c : ℚ) - s1⌋ : ℚ)) *
          X.pxZ (⌊(r : ℚ) - s0⌋ + 1) (⌊(c : ℚ) - s1⌋ + 1) := rfl

/-- A shift whose column component is zero reads only the pixel column it
writes: bilinear interpolation degenerates to the vertical pair. -/
theorem shiftImage_px_zero_col (X : Image) (s0 : ℚ) (r c : ℕ) :
    (shiftImage X s0 0).px r c =
      (1 - (((r : ℚ) - s0) - (⌊(r : ℚ) - s0⌋ : ℚ))) *
          X.pxZ ⌊(r : ℚ) - s0⌋ (c : ℤ) +
        (((r : ℚ) - s0) - (⌊(r : ℚ) - s0⌋ : ℚ)) *
          X.pxZ (⌊(r : ℚ) - s0⌋ + 1) (c : ℤ) := by
  rw [shiftImage_px]
  have hx : ((c : ℚ) - 0) = (c : ℚ) := by ring
  rw [hx, Int.floor_natCast c]
  have ht : (c : ℚ) - ((c : ℤ) : ℚ) = 0 := by push_cast; ring
  rw [ht]
  ring

/-- A shift whose row component is zero reads only the pixel row it
writes. -/
theorem shiftImage_px_zero_row (X : Image) (s1 : ℚ) (r c : ℕ) :
    (shiftImage X 0 s1).px r c =
      (1 - (((c : ℚ) - s1) - (⌊(c : ℚ) - s1⌋ : ℚ))) *
          X.pxZ (r : ℤ) ⌊(c : ℚ) - s1⌋ +
        (((c : ℚ) - s1) - (⌊(c : ℚ) - s1⌋ : ℚ)) *
          X.pxZ (r : ℤ) (⌊(c : ℚ) - s1⌋ + 1) := by
  rw [shiftImage_px]
  have hy : ((r : ℚ) - 0) = (r : ℚ) := by ring
  rw [hy, Int.floor_natCast r]
  have ht : (r : ℚ) - ((r : ℤ) : ℚ) = 0 := by push_cast; ring
  rw [ht]
  ring

/-- Two images that agree on a pair of columns (and in shape) have equal
zero-extended lookups along those columns. -/
theorem pxZ_col_congr (A B : Image) (hR : A.rows = B.rows) (cA cB : ℕ)
    (hcA : cA < A.cols) (hcB : cB < B.cols)
    (hcol : ∀ r, r < A.rows → A.px r cA = B.px r cB) (i : ℤ) :
    A.pxZ i (cA : ℤ) = B.pxZ i (cB : ℤ) := by
  unfold Image.pxZ
  by_cases h : 0 ≤ i ∧ i < (A.rows : ℤ)
  · rw [if_pos ⟨h.1, h.2, by omega, by omega⟩,
      if_pos ⟨h.1, by omega, by omega, by omega⟩]
    have e : ((cA : ℤ)).toNat = cA := by omega
    have e2 : ((cB : ℤ)).toNat = cB := by omega
    rw [e, e2]
    exact hcol i.toNat (by omega)
  · rw [if_neg (by omega), if_neg (by omega)]

/-- Row version of `pxZ_col_congr`. -/
theorem pxZ_row_congr (A B : Image) (hC : A.cols = B.cols) (rA rB : ℕ)
    (hrA : rA < A.rows) (hrB : rB < B.rows)
    (hrow : ∀ c, c < A.cols → A.px rA c = B.px rB c) (j : ℤ) :
    A.pxZ (rA : ℤ) j = B.pxZ (rB : ℤ) j := by
  unfold Image.pxZ
  by_cases h : 0 ≤ j ∧ j < (A.cols : ℤ)
  · rw [if_pos ⟨by omega, by omega, h.1, h.2⟩,
      if_pos ⟨by omega, by omega, h.1, by omega⟩]
    have e : ((rA : ℤ)).toNat = rA := by omega
    have e2 : ((rB : ℤ)).toNat = rB := by omega
    rw [e, e2]
    exact hrow j.toNat (by omega)
  · rw [if_neg (by omega), if_neg (by omega)]

/-- One-pixel zero padding preserves the column relation (columns shift
right by one). -/
theorem padConst_col_congr (A B : Image) (hR : A.rows = B.rows) (cA cB : ℕ)
    (hcA : cA < A.cols) (hcB : cB < B.cols)
    (hcol : ∀ r, r < A.rows → A.px r cA = B.px r cB) :
    ∀ r, r < (A.padConst 1 1 1 1).rows →
      (A.padConst 1 1 1 1).px r (1 + cA) = (B.padConst 1 1 1 1).px r (1 + cB) := by
  intro r _
  rw [Image.padConst_px, Image.padConst_px]
  by_cases h : 1 ≤ r ∧ r < 1 + A.rows
  · rw [if_pos ⟨h.1, h.2, by omega, by omega⟩,
      if_pos ⟨h.1, by omega, by omega, by omega⟩]
    have e : 1 + cA - 1 = cA := by omega
    have e2 : 1 + cB - 1 = cB := by omega
    rw [e, e2]
    exact hcol (r - 1) (by omega)
  · rw [if_neg (by omega), if_neg (by omega)]

/-- One-pixel zero padding preserves the row relation (rows shift down by
one). -/
theorem padConst_row_congr (A B : Image) (hC : A.cols = B.cols) (rA rB : ℕ)
    (hrA : rA < A.rows) (hrB : rB < B.rows)
    (hrow : ∀ c, c < A.cols → A.px rA c = B.px rB c) :
    ∀ c, c < (A.padConst 1 1 1 1).cols →
      (A.padConst 1 1 1 1).px (1 + rA) c = (B.padConst 1 1 1 1).px (1 + rB) c := by
  intro c _
  rw [Image.padConst_px, Image.padConst_px]
  by_cases h : 1 ≤ c ∧ c < 1 + A.cols
  · rw [if_pos ⟨by omega, by omega, h.1, h.2⟩,
      if_pos ⟨by omega, by omega, h.1, by omega⟩]
    have e : 1 + rA - 1 = rA := by omega
    have e2 : 1 + rB - 1 = rB := by omega
    rw [e, e2]
    exact hrow (c - 1) (by omega)
  · rw [if_neg (by omega), if_neg (by omega)]

theorem preShift_rows (A : Image) (crop : Crop) (s0 s1 : ℚ) :
    (preShift A crop s0 s1).rows =
      if s0 ≠ 0 then
        (if crop = Crop.valid_region then A.rows - 1 else A.rows + 1)
      else A.rows := by
  have hbase : pyIdx (1 + A.rows + 1) (-1) = A.rows + 1 := by
    rw [pyIdx_of_neg (by omega) (by omega)]
    omega
  simp only [preShift, Image.sliceCols_rows, Image.sliceRows_rows,
    pySliceStart_none, pySliceStop_some, shiftImage_rows, Image.padConst_rows,
    hbase, Nat.sub_zero]
  by_cases hs : s0 = 0
  · have h2 : pyIdx (A.rows + 1) 1 = 1 := by
      rw [pyIdx_of_nonneg_le (by omega) (by omega)]
      omega
    simp [preCutLo, preCutHi, hs, h2]
  · by_cases hc : crop = Crop.valid_region
    · have h2 : pyIdx (A.rows + 1) 1 = 1 := by
        rw [pyIdx_of_nonneg_le (by omega) (by omega)]
        omega
      have h3 : pyIdx (A.rows + 1) (-1) = A.rows := by
        rw [pyIdx_of_neg (by omega) (by omega)]
        omega
      simp [preCutLo, preCutHi, hs, hc, h2, h3]
    · simp [preCutLo, preCutHi, hs, hc]

theorem preShift_cols (A : Image) (crop : Crop) (s0 s1 : ℚ) :
    (preShift A crop s0 s1).cols =
      if s1 ≠ 0 then
        (if crop = Crop.valid_region then A.cols - 1 else A.cols + 1)
      else A.cols := by
  have hbase : pyIdx (1 + A.cols + 1) (-1) = A.cols + 1 := by
    rw [pyIdx_of_neg (by omega) (by omega)]
    omega
  simp only [preShift, Image.sliceCols_cols, Image.sliceRows_cols,
    pySliceStart_none, pySliceStop_some, shiftImage_cols, Image.padConst_cols,
    hbase, Nat.sub_zero]
  by_cases hs : s1 = 0
  · have h2 : pyIdx (A.cols + 1) 1 = 1 := by
      rw [pyIdx_of_nonneg_le (by omega) (by omega)]
      omega
    simp [preCutLo, preCutHi, hs, h2]
  · by_cases hc : crop = Crop.valid_region
    · have h2 : pyIdx (A.cols + 1) 1 = 1 := by
        rw [pyIdx_of_nonneg_le (by omega) (by omega)]
        omega
      have h3 : pyIdx (A.cols + 1) (-1) = A.cols := by
        rw [pyIdx_of_neg (by omega) (by omega)]
        omega
      simp [preCutLo, preCutHi, hs, hc, h2, h3]
    · simp [preCutLo, preCutHi, hs, hc]

theorem msFrac_px (A : Image) (d0 d1 : ℚ) (r c : ℕ) :
    (msFrac A d0 d1).px r c =
      (shiftImage (A.padConst 1 1 1 1) d0 d1).px (1 + r) (1 + c) := by
  have h0 : pySliceStart (1 + A.rows + 1) (some 1) = 1 := by
    simp only [pySliceStart_some]
    rw [pyIdx_of_nonneg_le (by omega) (by omega)]
    omega
  have h1 : pySliceStart (1 + A.cols + 1) (some 1) = 1 := by
    simp only [pySliceStart_some]
    rw [pyIdx_of_nonneg_le (by omega) (by omega)]
    omega
  unfold msFrac
  rw [Image.sliceCols_px, Image.sliceRows_px]
  simp only [Image.sliceRows_cols, shiftImage_cols, Image.padConst_cols,
    shiftImage_rows, Image.padConst_rows, h0, h1]

theorem msFrac_col_congr (A B : Image) (d0 : ℚ) (hR : A.rows = B.rows)
    (hC : A.cols = B.cols) (cA cB : ℕ) (hcA : cA < A.cols) (hcB : cB < B.cols)
    (hcol : ∀ r, r < A.rows → A.px r cA = B.px r cB) (r : ℕ) :
    (msFrac A d0 0).px r cA = (msFrac B d0 0).px r cB := by
  rw [msFrac_px, msFrac_px, shiftImage_px_zero_col, shiftImage_px_zero_col]
  have hpad : ∀ i : ℤ,
      (A.padConst 1 1 1 1).pxZ i ((1 + cA : ℕ) : ℤ) =
        (B.padConst 1 1 1 1).pxZ i ((1 + cB : ℕ) : ℤ) := by
    intro i
    exact pxZ_col_congr (A.padConst 1 1 1 1) (B.padConst 1 1 1 1)
      (by simp [hR]) (1 + cA) (1 + cB) (by simp; omega) (by simp; omega)
      (padConst_col_congr A B hR cA cB hcA hcB hcol) i
  simp only [hpad]

theorem msFrac_row_congr (A B : Image) (d1 : ℚ) (hR : A.rows = B.rows)
    (hC : A.cols = B.cols) (rA rB : ℕ) (hrA : rA < A.rows) (hrB : rB < B.rows)
    (hrow : ∀ c, c < A.cols → A.px rA c = B.px rB c) (c : ℕ) :
    (msFrac A 0 d1).px rA c = (msFrac B 0 d1).px rB c := by
  rw [msFrac_px, msFrac_px, shiftImage_px_zero_row, shiftImage_px_zero_row]
  have hpad : ∀ j : ℤ,
      (A.padConst 1 1 1 1).pxZ ((1 + rA : ℕ) : ℤ) j =
        (B.padConst 1 1 1 1).pxZ ((1 + rB : ℕ) : ℤ) j := by
    intro j
    exact pxZ_row_congr (A.padConst 1 1 1 1) (B.padConst 1 1 1 1)
      (by simp [hC]) (1 + rA) (1 + rB) (by simp; omega) (by simp; omega)
      (padConst_row_congr A B hC rA rB hrA hrB hrow) j
  simp only [hpad]

theorem preShift_px (A : Image) (crop : Crop) (s0 s1 : ℚ) (r c : ℕ) :
    (preShift A crop s0 s1).px r c =
      (shiftImage (A.padConst 1 1 1 1) (-s0) (-s1)).px
        (pySliceStart (A.rows + 1) (preCutLo crop s0) + r)
        (pySliceStart (A.cols + 1) (preCutLo crop s1) + c) := by
  have hbr : pyIdx (1 + A.rows + 1) (-1) = A.rows + 1 := by
    rw [pyIdx_of_neg (by omega) (by omega)]
    omega
  have hbc : pyIdx (1 + A.cols + 1) (-1) = A.cols + 1 := by
    rw [pyIdx_of_neg (by omega) (by omega)]
    omega
  unfold preShift
  rw [Image.sliceCols_px, Image.sliceRows_px, Image.sliceCols_px,
    Image.sliceRows_px]
  simp only [pySliceStart_none, Image.sliceRows_cols, Image.sliceCols_rows,
    Image.sliceRows_rows, Image.sliceCols_cols, shiftImage_rows,
    shiftImage_cols, Image.padConst_rows, Image.padConst_cols,
    pySliceStop_some, hbr, hbc, Nat.sub_zero, Nat.zero_add, Nat.add_zero,
    zero_add, add_zero]

theorem preShift_col_congr (A B : Image) (crop : Crop) (s0 : ℚ)
    (hR : A.rows = B.rows) (hC : A.cols = B.cols) (cA cB : ℕ)
    (hcA : cA < A.cols) (hcB : cB < B.cols)
    (hcol : ∀ r, r < A.rows → A.px r cA = B.px r cB) (r : ℕ) :
    (preShift A crop s0 0).px r cA = (preShift B crop s0 0).px r cB := by
  rw [preShift_px, preShift_px, ← hR, ← hC]
  have hlo : preCutLo crop 0 = some 1 := by simp [preCutLo]
  rw [hlo]
  have h1 : pySliceStart (A.cols + 1) (some 1) = 1 := by
    simp only [pySliceStart_some]
    rw [pyIdx_of_nonneg_le (by omega) (by omega)]
    omega
  rw [h1, neg_zero, shiftImage_px_zero_col, shiftImage_px_zero_col]
  have hpad : ∀ i : ℤ,
      (A.padConst 1 1 1 1).pxZ i ((1 + cA : ℕ) : ℤ) =
        (B.padConst 1 1 1 1).pxZ i ((1 + cB : ℕ) : ℤ) := by
    intro i
    exact pxZ_col_congr (A.padConst 1 1 1 1) (B.padConst 1 1 1 1)
      (by simp [hR]) (1 + cA) (1 + cB) (by simp; omega) (by simp; omega)
      (padConst_col_congr A B hR cA cB hcA hcB hcol) i
  simp only [hpad]

theorem preShift_row_congr (A B : Image) (crop : Crop) (s1 : ℚ)
    (hR : A.rows = B.rows) (hC : A.cols = B.cols) (rA rB : ℕ)
    (hrA : rA < A.rows) (hrB : rB < B.rows)
    (hrow : ∀ c, c < A.cols → A.px rA c = B.px rB c) (c : ℕ) :
    (preShift A crop 0 s1).px rA c = (preShift B crop 0 s1).px rB c := by
  rw [preShift_px, preShift_px, ← hR, ← hC]
  have hlo : preCutLo crop 0 = some 1 := by simp [preCutLo]
  rw [hlo]
  have h1 : pySliceStart (A.rows + 1) (some 1) = 1 := by
    simp only [pySliceStart_some]
    rw [pyIdx_of_nonneg_le (by omega) (by omega)]
    omega
  rw [h1, neg_zero, shiftImage_px_zero_row, shiftImage_px_zero_row]
  have hpad : ∀ j : ℤ,
      (A.padConst 1 1 1 1).pxZ ((1 + rA : ℕ) : ℤ) j =
        (B.padConst 1 1 1 1).pxZ ((1 + rB : ℕ) : ℤ) j := by
    intro j
    exact pxZ_row_congr (A.padConst 1 1 1 1) (B.padConst 1 1 1 1)
      (by simp [hC]) (1 + rA) (1 + rB) (by simp; omega) (by simp; omega)
      (padConst_row_congr A B hC rA rB hrA hrB hrow) j
  simp only [hpad]

/- ### Structural equations for the crop stages -/

theorem vrCrop_rows_eq (X : Image) (a0 a1 : Bool) (g0 m0 g1 m1 : ℤ) :
    (vrCrop X a0 a1 g0 m0 g1 m1).rows =
      pySliceStop X.rows (vrHi a0 g0 m0) - pySliceStart X.rows (vrLo a0 g0 m0)
    := rfl

theorem vrCrop_cols_eq (X : Image) (a0 a1 : Bool) (g0 m0 g1 m1 : ℤ) :
    (vrCrop X a0 a1 g0 m0 g1 m1).cols =
      pySliceStop X.cols (vrHi a1 g1 m1) - pySliceStart X.cols (vrLo a1 g1 m1)
    := rfl

theorem vrCrop_px_eq (X : Image) (a0 a1 : Bool) (g0 m0 g1 m1 : ℤ) (r c : ℕ) :
    (vrCrop X a0 a1 g0 m0 g1 m1).px r c =
      X.px (pySliceStart X.rows (vrLo a0 g0 m0) + r)
        (pySliceStart X.cols (vrLo a1 g1 m1) + c) := rfl

@[simp] theorem vrLo_false (g m : ℤ) : vrLo false g m = none := rfl

@[simp] theorem vrHi_false (g m : ℤ) : vrHi false g m = none := rfl

theorem mdPad_rows_eq (X : Image) (a0 a1 : Bool) (g0 m0 g1 m1 : ℤ) :
    (mdPad X a0 a1 g0 m0 g1 m1).rows =
      mdLo a0 g0 m0 + X.rows + mdHi a0 g0 m0 := rfl

theorem mdPad_cols_eq (X : Image) (a0 a1 : Bool) (g0 m0 g1 m1 : ℤ) :
    (mdPad X a0 a1 g0 m0 g1 m1).cols =
      mdLo a1 g1 m1 + X.cols + mdHi a1 g1 m1 := rfl

theorem mdPad_px_eq (X : Image) (a0 a1 : Bool) (g0 m0 g1 m1 : ℤ) (r c : ℕ) :
    (mdPad X a0 a1 g0 m0 g1 m1).px r c =
      if mdLo a0 g0 m0 ≤ r ∧ r < mdLo a0 g0 m0 + X.rows ∧
          mdLo a1 g1 m1 ≤ c ∧ c < mdLo a1 g1 m1 + X.cols then
        X.px (r - mdLo a0 g0 m0) (c - mdLo a1 g1 m1)
      else 0 := rfl

@[simp] theorem mdLo_false (g m : ℤ) : mdLo false g m = 0 := rfl

@[simp] theorem mdHi_false (g m : ℤ) : mdHi false g m = 0 := rfl

theorem msWhole_col_congr (A B : Image) (d0 : ℤ) (hR : A.rows = B.rows)
    (hC : A.cols = B.cols) (cA cB : ℕ) (hcA : cA < A.cols) (hcB : cB < B.cols)
    (hcol : ∀ r, r < A.rows → A.px r cA = B.px r cB) (r : ℕ) :
    (msWhole A d0 0).px r cA = (msWhole B d0 0).px r cB := by
  have bA : (msWhole A d0 0).px r cA =
      if d0.toNat ≤ r ∧ r < A.rows - (-d0).toNat ∧
          (0 : ℤ).toNat ≤ cA ∧ cA < A.cols - (-(0 : ℤ)).toNat then
        A.px (r - d0.toNat + (-d0).toNat) (cA - (0 : ℤ).toNat + (-(0 : ℤ)).toNat)
      else 0 := rfl
  have bB : (msWhole B d0 0).px r cB =
      if d0.toNat ≤ r ∧ r < B.rows - (-d0).toNat ∧
          (0 : ℤ).toNat ≤ cB ∧ cB < B.cols - (-(0 : ℤ)).toNat then
        B.px (r - d0.toNat + (-d0).toNat) (cB - (0 : ℤ).toNat + (-(0 : ℤ)).toNat)
      else 0 := rfl
  rw [bA, bB]
  by_cases h : d0.toNat ≤ r ∧ r < A.rows - (-d0).toNat
  · rw [if_pos ⟨h.1, h.2, by omega, by omega⟩,
      if_pos ⟨h.1, by omega, by omega, by omega⟩]
    have e : cA - (0 : ℤ).toNat + (-(0 : ℤ)).toNat = cA := by omega
    have e2 : cB - (0 : ℤ).toNat + (-(0 : ℤ)).toNat = cB := by omega
    rw [e, e2]
    exact hcol _ (by omega)
  · rw [if_neg (by omega), if_neg (by omega)]

theorem msWhole_row_congr (A B : Image) (d1 : ℤ) (hR : A.rows = B.rows)
    (hC : A.cols = B.cols) (rA rB : ℕ) (hrA : rA < A.rows) (hrB : rB < B.rows)
    (hrow : ∀ c, c < A.cols → A.px rA c = B.px rB c) (c : ℕ) :
    (msWhole A 0 d1).px rA c = (msWhole B 0 d1).px rB c := by
  have bA : (msWhole A 0 d1).px rA c =
      if (0 : ℤ).toNat ≤ rA ∧ rA < A.rows - (-(0 : ℤ)).toNat ∧
          d1.toNat ≤ c ∧ c < A.cols - (-d1).toNat then
        A.px (rA - (0 : ℤ).toNat + (-(0 : ℤ)).toNat) (c - d1.toNat + (-d1).toNat)
      else 0 := rfl
  have bB : (msWhole B 0 d1).px rB c =
      if (0 : ℤ).toNat ≤ rB ∧ rB < B.rows - (-(0 : ℤ)).toNat ∧
          d1.toNat ≤ c ∧ c < B.cols - (-d1).toNat then
        B.px (rB - (0 : ℤ).toNat + (-(0 : ℤ)).toNat) (c - d1.toNat + (-d1).toNat)
      else 0 := rfl
  rw [bA, bB]
  by_cases h : d1.toNat ≤ c ∧ c < A.cols - (-d1).toNat
  · rw [if_pos ⟨by omega, by omega, h.1, h.2⟩,
      if_pos ⟨by omega, by omega, h.1, by omega⟩]
    have e : rA - (0 : ℤ).toNat + (-(0 : ℤ)).toNat = rA := by omega
    have e2 : rB - (0 : ℤ).toNat + (-(0 : ℤ)).toNat = rB := by omega
    rw [e, e2]
    exact hrow _ (by omega)
  · rw [if_neg (by omega), if_neg (by omega)]

theorem mdPad_col_congr (X Y : Image) (a0 : Bool) (g0 m0 g1a m1a g1b m1b : ℤ)
    (hR : X.rows = Y.rows) (hC : X.cols = Y.cols) (cX cY : ℕ)
    (hcX : cX < X.cols) (hcY : cY < Y.cols)
    (hcol : ∀ r, r < X.rows → X.px r cX = Y.px r cY) (r : ℕ) :
    (mdPad X a0 false g0 m0 g1a m1a).px r cX =
      (mdPad Y a0 false g0 m0 g1b m1b).px r cY := by
  rw [mdPad_px_eq, mdPad_px_eq]
  simp only [mdLo_false]
  by_cases h : mdLo a0 g0 m0 ≤ r ∧ r < mdLo a0 g0 m0 + X.rows
  · rw [if_pos (by omega), if_pos (by omega)]
    have e1 : cX - 0 = cX := rfl
    have e2 : cY - 0 = cY := rfl
    rw [e1, e2]
    exact hcol _ (by omega)
  · rw [if_neg (by omega), if_neg (by omega)]

theorem mdPad_row_congr (X Y : Image) (a1 : Bool) (g1 m1 g0a m0a g0b m0b : ℤ)
    (hR : X.rows = Y.rows) (hC : X.cols = Y.cols) (rX rY : ℕ)
    (hrX : rX < X.rows) (hrY : rY < Y.rows)
    (hrow : ∀ c, c < X.cols → X.px rX c = Y.px rY c) (c : ℕ) :
    (mdPad X false a1 g0a m0a g1 m1).px rX c =
      (mdPad Y false a1 g0b m0b g1 m1).px rY c := by
  rw [mdPad_px_eq, mdPad_px_eq]
  simp only [mdLo_false]
  by_cases h : mdLo a1 g1 m1 ≤ c ∧ c < mdLo a1 g1 m1 + X.cols
  · rw [if_pos (by omega), if_pos (by omega)]
    have e1 : rX - 0 = rX := rfl
    have e2 : rY - 0 = rY := rfl
    rw [e1, e2]
    exact hrow _ (by omega)
  · rw [if_neg (by omega), if_neg (by omega)]

theorem scNorm_fst (n0 n1 : ℕ) (o0 o1 : Option ℚ) (axes : List ℕ)
    (order : ℕ) :
    (scNorm n0 n1 o0 o1 axes order).1 = normAxis order n0 (axes.contains 0) o0
    := rfl

theorem scNorm_snd (n0 n1 : ℕ) (o0 o1 : Option ℚ) (axes : List ℕ)
    (order : ℕ) :
    (scNorm n0 n1 o0 o1 axes order).2.1 =
      normAxis order n1 (axes.contains 1) o1 := rfl

/-- Reduction of `set_center` under the `valid_region` policy. -/
theorem set_center_vr_eq (A : Image) (o0 o1 : Option ℚ) (axes : List ℕ)
    (order : ℕ) :
    set_center A o0 o1 Crop.valid_region axes order =
      if effOrder A.rows A.cols o0 o1 axes order ≠ 0 then
        vrCrop (preShift A Crop.valid_region
            (scNorm A.rows A.cols o0 o1 axes order).1.sub
            (scNorm A.rows A.cols o0 o1 axes order).2.1.sub)
          (scNorm A.rows A.cols o0 o1 axes order).1.act
          (scNorm A.rows A.cols o0 o1 axes order).2.1.act
          (scNorm A.rows A.cols o0 o1 axes order).1.g
          (if (scNorm A.rows A.cols o0 o1 axes order).1.sub ≠ 0 then
            (scNorm A.rows A.cols o0 o1 axes order).1.m - 1
          else (scNorm A.rows A.cols o0 o1 axes order).1.m)
          (scNorm A.rows A.cols o0 o1 axes order).2.1.g
          (if (scNorm A.rows A.cols o0 o1 axes order).2.1.sub ≠ 0 then
            (scNorm A.rows A.cols o0 o1 axes order).2.1.m - 1
          else (scNorm A.rows A.cols o0 o1 axes order).2.1.m)
      else
        vrCrop A (scNorm A.rows A.cols o0 o1 axes order).1.act
          (scNorm A.rows A.cols o0 o1 axes order).2.1.act
          (scNorm A.rows A.cols o0 o1 axes order).1.g
          (scNorm A.rows A.cols o0 o1 axes order).1.m
          (scNorm A.rows A.cols o0 o1 axes order).2.1.g
          (scNorm A.rows A.cols o0 o1 axes order).2.1.m := rfl

/-- Reduction of `set_center` under the `maintain_data` policy. -/
theorem set_center_md_eq (A : Image) (o0 o1 : Option ℚ) (axes : List ℕ)
    (order : ℕ) :
    set_center A o0 o1 Crop.maintain_data axes order =
      if effOrder A.rows A.cols o0 o1 axes order ≠ 0 then
        mdPad (preShift A Crop.maintain_data
            (scNorm A.rows A.cols o0 o1 axes order).1.sub
            (scNorm A.rows A.cols o0 o1 axes order).2.1.sub)
          (scNorm A.rows A.cols o0 o1 axes order).1.act
          (scNorm A.rows A.cols o0 o1 axes order).2.1.act
          (if (scNorm A.rows A.cols o0 o1 axes order).1.sub ≠ 0 then
            (scNorm A.rows A.cols o0 o1 axes order).1.g + 1
          else (scNorm A.rows A.cols o0 o1 axes order).1.g)
          (scNorm A.rows A.cols o0 o1 axes order).1.m
          (if (scNorm A.rows A.cols o0 o1 axes order).2.1.sub ≠ 0 then
            (scNorm A.rows A.cols o0 o1 axes order).2.1.g + 1
          else (scNorm A.rows A.cols o0 o1 axes order).2.1.g)
          (scNorm A.rows A.cols o0 o1 axes order).2.1.m
      else
        mdPad A (scNorm A.rows A.cols o0 o1 axes order).1.act
          (scNorm A.rows A.cols o0 o1 axes order).2.1.act
          (scNorm A.rows A.cols o0 o1 axes order).1.g
          (scNorm A.rows A.cols o0 o1 axes order).1.m
          (scNorm A.rows A.cols o0 o1 axes order).2.1.g
          (scNorm A.rows A.cols o0 o1 axes order).2.1.m := rfl

/- ### Specializations to both axes active -/

theorem vrCrop_rows_tt (A : Image) (k0 k1 : ℕ) (h0 : k0 < A.rows) :
    (vrCrop A true true (k0 : ℤ) ((A.rows : ℤ) - 1 - k0)
        (k1 : ℤ) ((A.cols : ℤ) - 1 - k1)).rows =
      2 * min k0 (A.rows - 1 - k0) + 1 := by
  simpa using vrCrop_rows A true true k0 k1 h0

theorem vrCrop_cols_tt (A : Image) (k0 k1 : ℕ) (h1 : k1 < A.cols) :
    (vrCrop A true true (k0 : ℤ) ((A.rows : ℤ) - 1 - k0)
        (k1 : ℤ) ((A.cols : ℤ) - 1 - k1)).cols =
      2 * min k1 (A.cols - 1 - k1) + 1 := by
  simpa using vrCrop_cols A true true k0 k1 h1

theorem vrCrop_px_tt (A : Image) (k0 k1 : ℕ) (h0 : k0 < A.rows)
    (h1 : k1 < A.cols) (r c : ℕ) :
    (vrCrop A true true (k0 : ℤ) ((A.rows : ℤ) - 1 - k0)
        (k1 : ℤ) ((A.cols : ℤ) - 1 - k1)).px r c =
      A.px (k0 - min k0 (A.rows - 1 - k0) + r)
        (k1 - min k1 (A.cols - 1 - k1) + c) := by
  simpa using vrCrop_px A true true k0 k1 h0 h1 r c

theorem mdPad_rows_tt (A : Image) (k0 k1 : ℕ) (h0 : k0 < A.rows) :
    (mdPad A true true (k0 : ℤ) ((A.rows : ℤ) - 1 - k0)
        (k1 : ℤ) ((A.cols : ℤ) - 1 - k1)).rows =
      2 * max k0 (A.rows - 1 - k0) + 1 := by
  simpa using mdPad_rows A true true k0 k1 h0

theorem mdPad_cols_tt (A : Image) (k0 k1 : ℕ) (h1 : k1 < A.cols) :
    (mdPad A true true (k0 : ℤ) ((A.rows : ℤ) - 1 - k0)
        (k1 : ℤ) ((A.cols : ℤ) - 1 - k1)).cols =
      2 * max k1 (A.cols - 1 - k1) + 1 := by
  simpa using mdPad_cols A true true k0 k1 h1

theorem mdPad_px_tt (A : Image) (k0 k1 : ℕ) (h0 : k0 < A.rows)
    (h1 : k1 < A.cols) (r c : ℕ) :
    (mdPad A true true (k0 : ℤ) ((A.rows : ℤ) - 1 - k0)
        (k1 : ℤ) ((A.cols : ℤ) - 1 - k1)).px r c =
      if max k0 (A.rows - 1 - k0) - k0 ≤ r ∧
          r < max k0 (A.rows - 1 - k0) - k0 + A.rows ∧
          max k1 (A.cols - 1 - k1) - k1 ≤ c ∧
          c < max k1 (A.cols - 1 - k1) - k1 + A.cols then
        A.px (r - (max k0 (A.rows - 1 - k0) - k0))
          (c - (max k1 (A.cols - 1 - k1) - k1))
      else 0 := by
  simpa using mdPad_px A true true k0 k1 h0 h1 r c

/-- Column passthrough: when axis 1 is inactive and its subpixel part is
zero (or the policy is `maintain_size`), `set_center` keeps the column count
and processes every column independently and identically: outputs at a pair
of equal input columns are equal, across two images of the same shape. -/
theorem set_center_col_congr (A B : Image) (o0 o1 : Option ℚ) (crop : Crop)
    (axes : List ℕ) (order : ℕ)
    (hR : A.rows = B.rows) (hC : A.cols = B.cols)
    (hact : (scNorm A.rows A.cols o0 o1 axes order).2.1.act = false)
    (hpass : (scNorm A.rows A.cols o0 o1 axes order).2.1.sub = 0 ∨
      crop = Crop.maintain_size)
    (cA cB : ℕ) (hcA : cA < A.cols) (hcB : cB < B.cols)
    (hcol : ∀ r, r < A.rows → A.px r cA = B.px r cB) :
    (set_center A o0 o1 crop axes order).cols = A.cols ∧
    (set_center A o0 o1 crop axes order).rows =
      (set_center B o0 o1 crop axes order).rows ∧
    ∀ r, r < (set_center A o0 o1 crop axes order).rows →
      (set_center A o0 o1 crop axes order).px r cA =
        (set_center B o0 o1 crop axes order).px r cB := by
  cases crop with
  | maintain_size =>
    rw [set_center_ms A, set_center_ms B, ← hR, ← hC]
    by_cases hord : effOrder A.rows A.cols o0 o1 axes order = 0
    · rw [if_neg (not_not_intro hord), if_neg (not_not_intro hord)]
      have hδ1A : scDelta1 A o0 o1 axes order = 0 := by
        unfold scDelta1
        rw [hact]
        simp
      have hδ1B : scDelta1 B o0 o1 axes order = 0 := by
        unfold scDelta1
        rw [← hR, ← hC, hact]
        simp
      have hδ0B : scDelta0 B o0 o1 axes order = scDelta0 A o0 o1 axes order := by
        unfold scDelta0
        rw [← hR, ← hC]
      rw [hδ1A, hδ1B, hδ0B]
      exact ⟨rfl, hR, fun r _ =>
        msWhole_col_congr A B _ hR hC cA cB hcA hcB hcol r⟩
    · rw [if_pos hord, if_pos hord]
      have hq1A : (if (scNorm A.rows A.cols o0 o1 axes order).2.1.act = true then
          (center_of A.cols : ℚ) -
            (((scNorm A.rows A.cols o0 o1 axes order).2.1.g : ℚ) +
              (scNorm A.rows A.cols o0 o1 axes order).2.1.sub)
        else 0) = 0 := by
        rw [hact]
        simp
      rw [hq1A]
      refine ⟨msFrac_cols A _ _, ?_, fun r _ =>
        msFrac_col_congr A B _ hR hC cA cB hcA hcB hcol r⟩
      rw [msFrac_rows, msFrac_rows, hR]
  | valid_region =>
    have hsub : (scNorm A.rows A.cols o0 o1 axes order).2.1.sub = 0 := by
      rcases hpass with hsub | hcrop
      · exact hsub
      · exact Crop.noConfusion hcrop
    rw [set_center_vr_eq A, set_center_vr_eq B, ← hR, ← hC]
    by_cases hord : effOrder A.rows A.cols o0 o1 axes order = 0
    · rw [if_neg (not_not_intro hord), if_neg (not_not_intro hord)]
      refine ⟨?_, ?_, ?_⟩
      · rw [vrCrop_cols_eq, hact]
        simp
      · rw [vrCrop_rows_eq, vrCrop_rows_eq, ← hR]
      · intro r hr
        rw [vrCrop_rows_eq] at hr
        rw [vrCrop_px_eq, vrCrop_px_eq, hact]
        simp only [vrLo_false, pySliceStart_none, Nat.add_zero, Nat.zero_add,
          zero_add, add_zero]
        rw [← hR]
        apply hcol
        have hb := pySliceStop_le A.rows
          (vrHi (scNorm A.rows A.cols o0 o1 axes order).1.act
            (scNorm A.rows A.cols o0 o1 axes order).1.g
            (scNorm A.rows A.cols o0 o1 axes order).1.m)
        omega
    · rw [if_pos hord, if_pos hord, hsub]
      have hps : (preShift A Crop.valid_region
          (scNorm A.rows A.cols o0 o1 axes order).1.sub 0).rows =
          (preShift B Crop.valid_region
            (scNorm A.rows A.cols o0 o1 axes order).1.sub 0).rows := by
        rw [preShift_rows, preShift_rows, hR]
      refine ⟨?_, ?_, ?_⟩
      · rw [vrCrop_cols_eq, hact]
        simp only [vrLo_false, vrHi_false, pySliceStop_none, pySliceStart_none,
          Nat.sub_zero]
        rw [preShift_cols]
        simp
      · rw [vrCrop_rows_eq, vrCrop_rows_eq, ← hps]
      · intro r hr
        rw [vrCrop_px_eq, vrCrop_px_eq, hact]
        simp only [vrLo_false, pySliceStart_none, Nat.add_zero, Nat.zero_add,
          zero_add, add_zero]
        rw [← hps]
        exact preShift_col_congr A B Crop.valid_region _ hR hC cA cB hcA hcB
          hcol _
  | maintain_data =>
    have hsub : (scNorm A.rows A.cols o0 o1 axes order).2.1.sub = 0 := by
      rcases hpass with hsub | hcrop
      · exact hsub
      · exact Crop.noConfusion hcrop
    rw [set_center_md_eq A, set_center_md_eq B, ← hR, ← hC]
    by_cases hord : effOrder A.rows A.cols o0 o1 axes order = 0
    · rw [if_neg (not_not_intro hord), if_neg (not_not_intro hord)]
      refine ⟨?_, ?_, ?_⟩
      · rw [mdPad_cols_eq, hact]
        simp
      · rw [mdPad_rows_eq, mdPad_rows_eq, ← hR]
      · intro r hr
        rw [hact]
        exact mdPad_col_congr A B _ _ _ _ _ _ _ hR hC cA cB hcA hcB hcol r
    · rw [if_pos hord, if_pos hord, hsub]
      have hpsr : (preShift A Crop.maintain_data
          (scNorm A.rows A.cols o0 o1 axes order).1.sub 0).rows =
          (preShift B Crop.maintain_data
            (scNorm A.rows A.cols o0 o1 axes order).1.sub 0).rows := by
        rw [preShift_rows, preShift_rows, hR]
      have hpscA : (preShift A Crop.maintain_data
          (scNorm A.rows A.cols o0 o1 axes order).1.sub 0).cols = A.cols := by
        rw [preShift_cols]
        simp
      have hpscB : (preShift B Crop.maintain_data
          (scNorm A.rows A.cols o0 o1 axes order).1.sub 0).cols = B.cols := by
        rw [preShift_cols]
        simp
      refine ⟨?_, ?_, ?_⟩
      · rw [mdPad_cols_eq, hact]
        simp only [mdLo_false, mdHi_false, Nat.zero_add, zero_add,
          Nat.add_zero, add_zero]
        exact hpscA
      · rw [mdPad_rows_eq, mdPad_rows_eq, ← hpsr]
      · intro r hr
        rw [hact]
        exact mdPad_col_congr _ _ _ _ _ _ _ _ _ hpsr
          (by rw [hpscA, hpscB, hC]) cA cB (by rw [hpscA]; exact hcA)
          (by rw [hpscB]; exact hcB)
          (fun r2 _ => preShift_col_congr A B Crop.maintain_data _ hR hC cA cB
            hcA hcB hcol r2) r

/-- Row passthrough: when axis 0 is inactive and its subpixel part is zero
(or the policy is `maintain_size`), `set_center` keeps the row count and
processes every row independently and identically. -/
theorem set_center_row_congr (A B : Image) (o0 o1 : Option ℚ) (crop : Crop)
    (axes : List ℕ) (order : ℕ)
    (hR : A.rows = B.rows) (hC : A.cols = B.cols)
    (hact : (scNorm A.rows A.cols o0 o1 axes order).1.act = false)
    (hpass : (scNorm A.rows A.cols o0 o1 axes order).1.sub = 0 ∨
      crop = Crop.maintain_size)
    (rA rB : ℕ) (hrA : rA < A.rows) (hrB : rB < B.rows)
    (hrow : ∀ c, c < A.cols → A.px rA c = B.px rB c) :
    (set_center A o0 o1 crop axes order).rows = A.rows ∧
    (set_center A o0 o1 crop axes order).cols =
      (set_center B o0 o1 crop axes order).cols ∧
    ∀ c, c < (set_center A o0 o1 crop axes order).cols →
      (set_center A o0 o1 crop axes order).px rA c =
        (set_center B o0 o1 crop axes order).px rB c := by
  cases crop with
  | maintain_size =>
    rw [set_center_ms A, set_center_ms B, ← hR, ← hC]
    by_cases hord : effOrder A.rows A.cols o0 o1 axes order = 0
    · rw [if_neg (not_not_intro hord), if_neg (not_not_intro hord)]
      have hδ0A : scDelta0 A o0 o1 axes order = 0 := by
        unfold scDelta0
        rw [hact]
        simp
      have hδ0B : scDelta0 B o0 o1 axes order = 0 := by
        unfold scDelta0
        rw [← hR, ← hC, hact]
        simp
      have hδ1B : scDelta1 B o0 o1 axes order = scDelta1 A o0 o1 axes order := by
        unfold scDelta1
        rw [← hR, ← hC]
      rw [hδ0A, hδ0B, hδ1B]
      exact ⟨rfl, hC, fun c _ =>
        msWhole_row_congr A B _ hR hC rA rB hrA hrB hrow c⟩
    · rw [if_pos hord, if_pos hord]
      have hq0A : (if (scNorm A.rows A.cols o0 o1 axes order).1.act = true then
          (center_of A.rows : ℚ) -
            (((scNorm A.rows A.cols o0 o1 axes order).1.g : ℚ) +
              (scNorm A.rows A.cols o0 o1 axes order).1.sub)
        else 0) = 0 := by
        rw [hact]
        simp
      rw [hq0A]
      refine ⟨msFrac_rows A _ _, ?_, fun c _ =>
        msFrac_row_congr A B _ hR hC rA rB hrA hrB hrow c⟩
      rw [msFrac_cols, msFrac_cols, hC]
  | valid_region =>
    have hsub : (scNorm A.rows A.cols o0 o1 axes order).1.sub = 0 := by
      rcases hpass with hsub | hcrop
      · exact hsub
      · exact Crop.noConfusion hcrop
    rw [set_center_vr_eq A, set_center_vr_eq B, ← hR, ← hC]
    by_cases hord : effOrder A.rows A.cols o0 o1 axes order = 0
    · rw [if_neg (not_not_intro hord), if_neg (not_not_intro hord)]
      refine ⟨?_, ?_, ?_⟩
      · rw [vrCrop_rows_eq, hact]
        simp
      · rw [vrCrop_cols_eq, vrCrop_cols_eq, ← hC]
      · intro c hc
        rw [vrCrop_cols_eq] at hc
        rw [vrCrop_px_eq, vrCrop_px_eq, hact]
        simp only [vrLo_false, pySliceStart_none, Nat.add_zero, Nat.zero_add,
          zero_add, add_zero]
        rw [← hC]
        apply hrow
        have hb := pySliceStop_le A.cols
          (vrHi (scNorm A.rows A.cols o0 o1 axes order).2.1.act
            (scNorm A.rows A.cols o0 o1 axes order).2.1.g
            (scNorm A.rows A.cols o0 o1 axes order).2.1.m)
        omega
    · rw [if_pos hord, if_pos hord, hsub]
      have hps : (preShift A Crop.valid_region 0
          (scNorm A.rows A.cols o0 o1 axes order).2.1.sub).cols =
          (preShift B Crop.valid_region 0
            (scNorm A.rows A.cols o0 o1 axes order).2.1.sub).cols := by
        rw [preShift_cols, preShift_cols, hC]
      refine ⟨?_, ?_, ?_⟩
      · rw [vrCrop_rows_eq, hact]
        simp only [vrLo_false, vrHi_false, pySliceStop_none, pySliceStart_none,
          Nat.sub_zero]
        rw [preShift_rows]
        simp
      · rw [vrCrop_cols_eq, vrCrop_cols_eq, ← hps]
      · intro c hc
        rw [vrCrop_px_eq, vrCrop_px_eq, hact]
        simp only [vrLo_false, pySliceStart_none, Nat.add_zero, Nat.zero_add,
          zero_add, add_zero]
        rw [← hps]
        exact preShift_row_congr A B Crop.valid_region _ hR hC rA rB hrA hrB
          hrow _
  | maintain_data =>
    have hsub : (scNorm A.rows A.cols o0 o1 axes order).1.sub = 0 := by
      rcases hpass with hsub | hcrop
      · exact hsub
      · exact Crop.noConfusion hcrop
    rw [set_center_md_eq A, set_center_md_eq B, ← hR, ← hC]
    by_cases hord : effOrder A.rows A.cols o0 o1 axes order = 0
    · rw [if_neg (not_not_intro hord), if_neg (not_not_intro hord)]
      refine ⟨?_, ?_, ?_⟩
      · rw [mdPad_rows_eq, hact]
        simp
      · rw [mdPad_cols_eq, mdPad_cols_eq, ← hC]
      · intro c hc
        rw [hact]
        exact mdPad_row_congr A B _ _ _ _ _ _ _ hR hC rA rB hrA hrB hrow c
    · rw [if_pos hord, if_pos hord, hsub]
      have hpsc : (preShift A Crop.maintain_data 0
          (scNorm A.rows A.cols o0 o1 axes order).2.1.sub).cols =
          (preShift B Crop.maintain_data 0
            (scNorm A.rows A.cols o0 o1 axes order).2.1.sub).cols := by
        rw [preShift_cols, preShift_cols, hC]
      have hpsrA : (preShift A Crop.maintain_data 0
          (scNorm A.rows A.cols o0 o1 axes order).2.1.sub).rows = A.rows := by
        rw [preShift_rows]
        simp
      have hpsrB : (preShift B Crop.maintain_data 0
          (scNorm A.rows A.cols o0 o1 axes order).2.1.sub).rows = B.rows := by
        rw [preShift_rows]
        simp
      refine ⟨?_, ?_, ?_⟩
      · rw [mdPad_rows_eq, hact]
        simp only [mdLo_false, mdHi_false, Nat.zero_add, zero_add,
          Nat.add_zero, add_zero]
        exact hpsrA
      · rw [mdPad_cols_eq, mdPad_cols_eq, ← hpsc]
      · intro c hc
        rw [hact]
        exact mdPad_row_congr _ _ _ _ _ _ _ _ _
          (by rw [hpsrA, hpsrB, hR]) hpsc rA rB (by rw [hpsrA]; exact hrA)
          (by rw [hpsrB]; exact hrB)
          (fun c2 _ => preShift_row_congr A B Crop.maintain_data _ hR hC rA rB
            hrA hrB hrow c2) c

theorem pyFrac_five_halves (n : ℕ) : pyFrac n (5/2 : ℚ) = 1/2 := by
  rw [pyFrac, normCoord_of_nonneg (by norm_num)]
  rw [show pyInt (5/2 : ℚ) = 2 by
    rw [pyInt, if_neg (by norm_num)]
    rw [show ⌊(5/2 : ℚ)⌋ = 2 by norm_num]]
  norm_num

/- ### Claim theorems -/

/-- Counterexample to C1 as stated: on a 5×5 image with `origin = (2, 5/2)`,
`axes = [0]` (axis 1 excluded from the axes set, hence inactive) and
`order = 3`, `set_center` with `crop='valid_region'` returns an array with 4
columns — the inactive axis is **not** passed through unchanged in shape,
because the sub-pixel pre-shift consults the fractional part of the excluded
axis's coordinate and then cuts both of its fractional ends. -/
theorem claim_C1_counterexample :
    ¬(([0] : List ℕ).contains 1 = true) ∧
    (probeImg 5 5).cols = 5 ∧
    (set_center (probeImg 5 5) (some ((2 : ℕ) : ℚ)) (some (5/2 : ℚ))
      Crop.valid_region [0] 3).cols = 4 ∧
    (4 : ℕ) ≠ 5 := by
  refine ⟨by decide, rfl, ?_, by decide⟩
  have hs1 : (normAxis 3 5 (([0] : List ℕ).contains 1) (some (5/2 : ℚ))).sub =
      1/2 := by
    rw [normAxis_some_of_order_ne _ _ _ _ (by norm_num)]
    exact pyFrac_five_halves 5
  have hs0 : (normAxis 3 5 (([0] : List ℕ).contains 0)
      (some ((2 : ℕ) : ℚ))).sub = 0 := by
    rw [normAxis_natCast]
  have hord : effOrder 5 5 (some ((2 : ℕ) : ℚ)) (some (5/2 : ℚ)) [0] 3 = 3 := by
    show (if (normAxis 3 5 (([0] : List ℕ).contains 0)
          (some ((2 : ℕ) : ℚ))).sub = 0 ∧
        (normAxis 3 5 (([0] : List ℕ).contains 1) (some (5/2 : ℚ))).sub = 0
      then 0 else 3) = 3
    rw [hs0, hs1]
    norm_num
  have hact1 : (scNorm 5 5 (some ((2 : ℕ) : ℚ)) (some (5/2 : ℚ)) [0]
      3).2.1.act = false := by
    rw [scNorm_snd, normAxis_some_of_order_ne _ _ _ _ (by norm_num)]
    decide
  rw [set_center_vr_eq,
    show (probeImg 5 5).rows = 5 from rfl,
    show (probeImg 5 5).cols = 5 from rfl,
    if_pos (show effOrder 5 5 (some ((2 : ℕ) : ℚ)) (some (5/2 : ℚ)) [0] 3 ≠ 0
      by rw [hord]; norm_num)]
  rw [vrCrop_cols_eq, hact1]
  simp only [vrLo_false, vrHi_false, pySliceStop_none, pySliceStart_none,
    Nat.sub_zero]
  rw [scNorm_snd, scNorm_fst, hs0, hs1, preShift_cols,
    if_pos (show (1/2 : ℚ) ≠ 0 by norm_num), if_pos rfl]
  decide

/-- C1 (amended): an inactive axis of `set_center` — its origin component
`None`, or the axis excluded from the axes set — is passed through unchanged
in shape and content **provided** its subpixel part is zero or the crop
policy is `maintain_size` (a `None` component always has subpixel 0; the
restriction on excluded-but-specified fractional coordinates under
`valid_region`/`maintain_data` is forced by the counterexample).  Unchanged
content is expressed as a congruence: the axis length is preserved, and the
output along the inactive axis is computed from the corresponding input line
alone, identically for every line, across any two images of equal shape. -/
theorem claim_C1 (A B : Image) (o0 o1 : Option ℚ) (crop : Crop)
    (axes : List ℕ) (order : ℕ) (hR : A.rows = B.rows) (hC : A.cols = B.cols) :
    ((scNorm A.rows A.cols o0 o1 axes order).2.1.act = false →
      ((scNorm A.rows A.cols o0 o1 axes order).2.1.sub = 0 ∨
        crop = Crop.maintain_size) →
      ∀ cA cB, cA < A.cols → cB < B.cols →
        (∀ r, r < A.rows → A.px r cA = B.px r cB) →
        (set_center A o0 o1 crop axes order).cols = A.cols ∧
        (set_center A o0 o1 crop axes order).rows =
          (set_center B o0 o1 crop axes order).rows ∧
        ∀ r, r < (set_center A o0 o1 crop axes order).rows →
          (set_center A o0 o1 crop axes order).px r cA =
            (set_center B o0 o1 crop axes order).px r cB) ∧
    ((scNorm A.rows A.cols o0 o1 axes order).1.act = false →
      ((scNorm A.rows A.cols o0 o1 axes order).1.sub = 0 ∨
        crop = Crop.maintain_size) →
      ∀ rA rB, rA < A.rows → rB < B.rows →
        (∀ c, c < A.cols → A.px rA c = B.px rB c) →
        (set_center A o0 o1 crop axes order).rows = A.rows ∧
        (set_center A o0 o1 crop axes order).cols =
          (set_center B o0 o1 crop axes order).cols ∧
        ∀ c, c < (set_center A o0 o1 crop axes order).cols →
          (set_center A o0 o1 crop axes order).px rA c =
            (set_center B o0 o1 crop axes order).px rB c) :=
  ⟨fun hact hpass cA cB hcA hcB hcol =>
    set_center_col_congr A B o0 o1 crop axes order hR hC hact hpass cA cB hcA
      hcB hcol,
   fun hact hpass rA rB hrA hrB hrow =>
    set_center_row_congr A B o0 o1 crop axes order hR hC hact hpass rA rB hrA
      hrB hrow⟩

/-- Witness for the amended C1: centering a 4×5 image on axis 0 only, with a
whole-pixel column coordinate, keeps all 5 columns. -/
theorem claim_C1_witness :
    (set_center (probeImg 4 5) (some ((1 : ℕ) : ℚ)) (some ((3 : ℕ) : ℚ))
      Crop.valid_region [0] 3).cols = 5 := by
  have h := (claim_C1 (probeImg 4 5) (probeImg 4 5) (some ((1 : ℕ) : ℚ))
      (some ((3 : ℕ) : ℚ)) Crop.valid_region [0] 3 rfl rfl).1
    (by rw [scNorm_snd, normAxis_natCast]; decide)
    (Or.inl (by rw [scNorm_snd, normAxis_natCast]))
    2 2 (by decide) (by decide) (fun r _ => rfl)
  exact h.1

/-- C4: for every image, every valid origin (integer or fractional; negative
components are normalized into the image, the hypotheses state that the
normalized integer part of each active coordinate lies within the image),
every axis set and every interpolation order, `set_center` with
`crop='maintain_size'` returns an array whose shape equals the input shape;
and on the whole-pixel path (effective order 0) the output pixel at `(r, c)`
is the input pixel shifted by `delta = center - origin` per active axis,
with data shifted past an array bound silently dropped and newly exposed
cells zero. -/
theorem claim_C4 (A : Image) (o0 o1 : Option ℚ) (axes : List ℕ) (order : ℕ)
    (hv0 : (scNorm A.rows A.cols o0 o1 axes order).1.act = true →
      0 ≤ (scNorm A.rows A.cols o0 o1 axes order).1.g ∧
        (scNorm A.rows A.cols o0 o1 axes order).1.g < (A.rows : ℤ))
    (hv1 : (scNorm A.rows A.cols o0 o1 axes order).2.1.act = true →
      0 ≤ (scNorm A.rows A.cols o0 o1 axes order).2.1.g ∧
        (scNorm A.rows A.cols o0 o1 axes order).2.1.g < (A.cols : ℤ)) :
    (set_center A o0 o1 Crop.maintain_size axes order).rows = A.rows ∧
    (set_center A o0 o1 Crop.maintain_size axes order).cols = A.cols ∧
    (effOrder A.rows A.cols o0 o1 axes order = 0 →
      ∀ r, r < A.rows → ∀ c, c < A.cols →
        (set_center A o0 o1 Crop.maintain_size axes order).px r c =
          if 0 ≤ (r : ℤ) - scDelta0 A o0 o1 axes order ∧
              (r : ℤ) - scDelta0 A o0 o1 axes order < (A.rows : ℤ) ∧
              0 ≤ (c : ℤ) - scDelta1 A o0 o1 axes order ∧
              (c : ℤ) - scDelta1 A o0 o1 axes order < (A.cols : ℤ) then
            A.px ((r : ℤ) - scDelta0 A o0 o1 axes order).toNat
              ((c : ℤ) - scDelta1 A o0 o1 axes order).toNat
          else 0) := by
  rw [set_center_ms]
  by_cases h : effOrder A.rows A.cols o0 o1 axes order ≠ 0
  · rw [if_pos h]
    exact ⟨msFrac_rows _ _ _, msFrac_cols _ _ _, fun h0 => absurd h0 h⟩
  · rw [if_neg h]
    exact ⟨rfl, rfl, fun _ r hr c hc => msWhole_px A _ _ r c hr hc⟩

/-- Witness for C4 at a concrete image and origin. -/
theorem claim_C4_witness :
    (set_center (probeImg 4 6) (some ((1 : ℕ) : ℚ)) (some ((2 : ℕ) : ℚ))
      Crop.maintain_size [0, 1] 3).rows = 4 ∧
    (set_center (probeImg 4 6) (some ((1 : ℕ) : ℚ)) (some ((2 : ℕ) : ℚ))
      Crop.maintain_size [0, 1] 3).cols = 6 := by
  have h := claim_C4 (probeImg 4 6) (some ((1 : ℕ) : ℚ)) (some ((2 : ℕ) : ℚ))
    [0, 1] 3 (by decide) (by decide)
  exact ⟨h.1, h.2.1⟩

/-- C5: for every image and every integer in-bounds origin, `set_center` with
`crop='valid_region'` returns, on each active axis, exactly the slice
`[origin - d : origin + d + 1]` of the input with `d = min(origin, mirror)`,
`mirror = shape - 1 - origin`: a contiguous subarray of the input whose shape
is component-wise at most the input shape on active axes (the source's final
`.copy()` makes the result an independent array; in this value-level model
the output is its own image, so non-aliasing has no further content). -/
theorem claim_C5 (A : Image) (k0 k1 : ℕ) (axes : List ℕ) (order : ℕ)
    (h0 : k0 < A.rows) (h1 : k1 < A.cols) :
    (set_center A (some (k0 : ℚ)) (some (k1 : ℚ)) Crop.valid_region axes
        order).rows =
      (if axes.contains 0 then 2 * min k0 (A.rows - 1 - k0) + 1 else A.rows) ∧
    (set_center A (some (k0 : ℚ)) (some (k1 : ℚ)) Crop.valid_region axes
        order).cols =
      (if axes.contains 1 then 2 * min k1 (A.cols - 1 - k1) + 1 else A.cols) ∧
    (set_center A (some (k0 : ℚ)) (some (k1 : ℚ)) Crop.valid_region axes
        order).rows ≤ A.rows ∧
    (set_center A (some (k0 : ℚ)) (some (k1 : ℚ)) Crop.valid_region axes
        order).cols ≤ A.cols ∧
    ∀ r c,
      (set_center A (some (k0 : ℚ)) (some (k1 : ℚ)) Crop.valid_region axes
          order).px r c =
        A.px ((if axes.contains 0 then k0 - min k0 (A.rows - 1 - k0) else 0) + r)
          ((if axes.contains 1 then k1 - min k1 (A.cols - 1 - k1) else 0) + c) := by
  rw [set_center_natCast_vr]
  refine ⟨vrCrop_rows A _ _ k0 k1 h0, vrCrop_cols A _ _ k0 k1 h1, ?_, ?_,
    fun r c => vrCrop_px A _ _ k0 k1 h0 h1 r c⟩
  · rw [vrCrop_rows A _ _ k0 k1 h0]
    split_ifs <;> omega
  · rw [vrCrop_cols A _ _ k0 k1 h1]
    split_ifs <;> omega

/-- Witness for C5 at a concrete image and origin. -/
theorem claim_C5_witness :
    (set_center (probeImg 5 7) (some ((1 : ℕ) : ℚ)) (some ((3 : ℕ) : ℚ))
      Crop.valid_region [0, 1] 3).rows = 3 ∧
    (set_center (probeImg 5 7) (some ((1 : ℕ) : ℚ)) (some ((3 : ℕ) : ℚ))
      Crop.valid_region [0, 1] 3).px 1 2 = (probeImg 5 7).px 1 2 := by
  have h := claim_C5 (probeImg 5 7) 1 3 [0, 1] 3 (by decide) (by decide)
  refine ⟨h.1.trans (by decide), (h.2.2.2.2 1 2).trans ?_⟩
  decide

/-- C6: for every image and every integer in-bounds origin, `set_center` with
`crop='maintain_data'` returns an array whose shape is component-wise at
least the input shape (only active axes grow, to `2 * max(origin, mirror) +
1`), in which the full input appears unmodified at offset `d - origin` from
the start (`d = max(origin, mirror)`), every cell outside that embedded copy
is zero, and no original sample is discarded. -/
theorem claim_C6 (A : Image) (k0 k1 : ℕ) (axes : List ℕ) (order : ℕ)
    (h0 : k0 < A.rows) (h1 : k1 < A.cols) :
    (set_center A (some (k0 : ℚ)) (some (k1 : ℚ)) Crop.maintain_data axes
        order).rows =
      (if axes.contains 0 then 2 * max k0 (A.rows - 1 - k0) + 1 else A.rows) ∧
    (set_center A (some (k0 : ℚ)) (some (k1 : ℚ)) Crop.maintain_data axes
        order).cols =
      (if axes.contains 1 then 2 * max k1 (A.cols - 1 - k1) + 1 else A.cols) ∧
    A.rows ≤ (set_center A (some (k0 : ℚ)) (some (k1 : ℚ)) Crop.maintain_data
        axes order).rows ∧
    A.cols ≤ (set_center A (some (k0 : ℚ)) (some (k1 : ℚ)) Crop.maintain_data
        axes order).cols ∧
    ∀ r c,
      (set_center A (some (k0 : ℚ)) (some (k1 : ℚ)) Crop.maintain_data axes
          order).px r c =
        if (if axes.contains 0 then max k0 (A.rows - 1 - k0) - k0 else 0) ≤ r ∧
            r < (if axes.contains 0 then max k0 (A.rows - 1 - k0) - k0 else 0) +
              A.rows ∧
            (if axes.contains 1 then max k1 (A.cols - 1 - k1) - k1 else 0) ≤ c ∧
            c < (if axes.contains 1 then max k1 (A.cols - 1 - k1) - k1 else 0) +
              A.cols then
          A.px (r - (if axes.contains 0 then max k0 (A.rows - 1 - k0) - k0 else 0))
            (c - (if axes.contains 1 then max k1 (A.cols - 1 - k1) - k1 else 0))
        else 0 := by
  rw [set_center_natCast_md]
  refine ⟨mdPad_rows A _ _ k0 k1 h0, mdPad_cols A _ _ k0 k1 h1, ?_, ?_,
    fun r c => mdPad_px A _ _ k0 k1 h0 h1 r c⟩
  · rw [mdPad_rows A _ _ k0 k1 h0]
    split_ifs <;> omega
  · rw [mdPad_cols A _ _ k0 k1 h1]
    split_ifs <;> omega

/-- Witness for C6 at a concrete image and origin. -/
theorem claim_C6_witness :
    (set_center (probeImg 3 4) (some ((0 : ℕ) : ℚ)) (some ((3 : ℕ) : ℚ))
      Crop.maintain_data [0, 1] 3).rows = 5 ∧
    (set_center (probeImg 3 4) (some ((0 : ℕ) : ℚ)) (some ((3 : ℕ) : ℚ))
      Crop.maintain_data [0, 1] 3).px 2 0 = (probeImg 3 4).px 0 0 := by
  have h := claim_C6 (probeImg 3 4) 0 3 [0, 1] 3 (by decide) (by decide)
  refine ⟨h.1.trans (by decide), (h.2.2.2.2 2 0).trans ?_⟩
  decide

/-- C9: for every odd-sized square image and each of the three crop policies,
`set_center` with the origin returned by the `image_center` method
(`rows // 2, cols // 2`) is a no-op: the output equals the input. -/
theorem claim_C9 (A : Image) (n : ℕ) (hr : A.rows = n) (hc : A.cols = n)
    (hodd : n % 2 = 1) (crop : Crop) :
    Image.Eq
      (set_center A (some ((find_origin_by_center_of_image A).1 : ℚ))
        (some ((find_origin_by_center_of_image A).2 : ℚ)) crop [0, 1] 3) A := by
  subst hr
  have hpos : 1 ≤ A.rows := by omega
  have hk1 : (find_origin_by_center_of_image A).1 = A.rows / 2 := rfl
  have hk2 : (find_origin_by_center_of_image A).2 = A.cols / 2 := rfl
  have hδr : center_of A.rows - ((A.rows / 2 : ℕ) : ℤ) = 0 := by
    obtain ⟨m, hm⟩ : ∃ m, A.rows = m + 1 := ⟨A.rows - 1, by omega⟩
    rw [hm, center_of_succ]
    omega
  have hδc : center_of A.cols - ((A.cols / 2 : ℕ) : ℤ) = 0 := by
    obtain ⟨m, hm⟩ : ∃ m, A.cols = m + 1 := ⟨A.cols - 1, by omega⟩
    rw [hm, center_of_succ]
    omega
  rw [hk1, hk2]
  have hI0 : ([0, 1] : List ℕ).contains 0 = true := rfl
  have hI1 : ([0, 1] : List ℕ).contains 1 = true := rfl
  cases crop with
  | maintain_size =>
    rw [set_center_natCast_ms, hI0, hI1, if_pos rfl, if_pos rfl, hδr, hδc]
    refine ⟨rfl, rfl, fun r hrr c hcc => ?_⟩
    have hr2 : r < A.rows := hrr
    have hc2 : c < A.cols := hcc
    rw [msWhole_px A 0 0 r c hr2 hc2, if_pos (by omega)]
    have e0 : ((r : ℤ) - 0).toNat = r := by omega
    have e1 : ((c : ℤ) - 0).toNat = c := by omega
    rw [e0, e1]
  | valid_region =>
    have hmin0 : min (A.rows / 2) (A.rows - 1 - A.rows / 2) = A.rows / 2 := by
      omega
    have hmin1 : min (A.cols / 2) (A.cols - 1 - A.cols / 2) = A.cols / 2 := by
      omega
    rw [set_center_natCast_vr, hI0, hI1]
    refine ⟨?_, ?_, fun r hrr c hcc => ?_⟩
    · rw [vrCrop_rows_tt A _ _ (by omega), hmin0]
      omega
    · rw [vrCrop_cols_tt A _ _ (by omega), hmin1]
      omega
    · rw [vrCrop_px_tt A _ _ (by omega) (by omega) r c, hmin0, hmin1]
      have e0 : A.rows / 2 - A.rows / 2 + r = r := by omega
      have e1 : A.cols / 2 - A.cols / 2 + c = c := by omega
      rw [e0, e1]
  | maintain_data =>
    have hmax0 : max (A.rows / 2) (A.rows - 1 - A.rows / 2) = A.rows / 2 := by
      omega
    have hmax1 : max (A.cols / 2) (A.cols - 1 - A.cols / 2) = A.cols / 2 := by
      omega
    rw [set_center_natCast_md, hI0, hI1]
    refine ⟨?_, ?_, fun r hrr c hcc => ?_⟩
    · rw [mdPad_rows_tt A _ _ (by omega), hmax0]
      omega
    · rw [mdPad_cols_tt A _ _ (by omega), hmax1]
      omega
    · have hr2 : r < A.rows := by
        have := hrr
        rw [mdPad_rows_tt A _ _ (by omega), hmax0] at this
        omega
      have hc2 : c < A.cols := by
        have := hcc
        rw [mdPad_cols_tt A _ _ (by omega), hmax1] at this
        omega
      rw [mdPad_px_tt A _ _ (by omega) (by omega) r c, hmax0, hmax1,
        if_pos (by omega)]
      have e0 : r - (A.rows / 2 - A.rows / 2) = r := by omega
      have e1 : c - (A.cols / 2 - A.cols / 2) = c := by omega
      rw [e0, e1]

/-- Witness for C9: a concrete odd-sized square image, all three policies. -/
theorem claim_C9_witness :
    Image.Eq
      (set_center (probeImg 3 3)
        (some ((find_origin_by_center_of_image (probeImg 3 3)).1 : ℚ))
        (some ((find_origin_by_center_of_image (probeImg 3 3)).2 : ℚ))
        Crop.maintain_size [0, 1] 3) (probeImg 3 3) ∧
    Image.Eq
      (set_center (probeImg 3 3)
        (some ((find_origin_by_center_of_image (probeImg 3 3)).1 : ℚ))
        (some ((find_origin_by_center_of_image (probeImg 3 3)).2 : ℚ))
        Crop.valid_region [0, 1] 3) (probeImg 3 3) ∧
    Image.Eq
      (set_center (probeImg 3 3)
        (some ((find_origin_by_center_of_image (probeImg 3 3)).1 : ℚ))
        (some ((find_origin_by_center_of_image (probeImg 3 3)).2 : ℚ))
        Crop.maintain_data [0, 1] 3) (probeImg 3 3) :=
  ⟨claim_C9 (probeImg 3 3) 3 rfl rfl (by decide) Crop.maintain_size,
   claim_C9 (probeImg 3 3) 3 rfl rfl (by decide) Crop.valid_region,
   claim_C9 (probeImg 3 3) 3 rfl rfl (by decide) Crop.maintain_data⟩

/-- Counterexample to C10 as stated: for the integer origin `(2, 7)` on a
5×5 image (origin outside the image on axis 1), `set_center` with
`crop='valid_region'` returns an array with 0 columns — an even length, not
the odd `2·d + 1` with the origin at the centre index. -/
theorem claim_C10_counterexample :
    (set_center (probeImg 5 5) (some ((2 : ℕ) : ℚ)) (some ((7 : ℕ) : ℚ))
      Crop.valid_region [0, 1] 3).cols = 0 ∧ ¬(0 % 2 = 1) := by
  constructor
  · rw [set_center_natCast_vr]
    decide
  · decide

/-- C10 (amended): for every integer origin whose active components lie
within the image bounds, `set_center` under `valid_region` and
`maintain_data` produces, on each active axis, an output of odd length
`2·d + 1` (`d = min(origin, mirror)` resp. `max(origin, mirror)`), so the
origin lands exactly at the output's centre index `(length - 1) // 2`; the
in-bounds restriction is forced by the counterexample (for out-of-bounds
origins the `valid_region` output can be empty). -/
theorem claim_C10 (A : Image) (k0 k1 : ℕ) (axes : List ℕ) (order : ℕ)
    (h0 : k0 < A.rows) (h1 : k1 < A.cols) :
    (axes.contains 0 = true →
      (set_center A (some (k0 : ℚ)) (some (k1 : ℚ)) Crop.valid_region axes
          order).rows = 2 * min k0 (A.rows - 1 - k0) + 1 ∧
      (set_center A (some (k0 : ℚ)) (some (k1 : ℚ)) Crop.valid_region axes
          order).rows % 2 = 1 ∧
      ((set_center A (some (k0 : ℚ)) (some (k1 : ℚ)) Crop.valid_region axes
          order).rows - 1) / 2 = min k0 (A.rows - 1 - k0)) ∧
    (axes.contains 1 = true →
      (set_center A (some (k0 : ℚ)) (some (k1 : ℚ)) Crop.valid_region axes
          order).cols = 2 * min k1 (A.cols - 1 - k1) + 1 ∧
      (set_center A (some (k0 : ℚ)) (some (k1 : ℚ)) Crop.valid_region axes
          order).cols % 2 = 1 ∧
      ((set_center A (some (k0 : ℚ)) (some (k1 : ℚ)) Crop.valid_region axes
          order).cols - 1) / 2 = min k1 (A.cols - 1 - k1)) ∧
    (axes.contains 0 = true → axes.contains 1 = true →
      (set_center A (some (k0 : ℚ)) (some (k1 : ℚ)) Crop.valid_region axes
          order).px (min k0 (A.rows - 1 - k0)) (min k1 (A.cols - 1 - k1)) =
        A.px k0 k1) ∧
    (axes.contains 0 = true →
      (set_center A (some (k0 : ℚ)) (some (k1 : ℚ)) Crop.maintain_data axes
          order).rows = 2 * max k0 (A.rows - 1 - k0) + 1 ∧
      (set_center A (some (k0 : ℚ)) (some (k1 : ℚ)) Crop.maintain_data axes
          order).rows % 2 = 1 ∧
      ((set_center A (some (k0 : ℚ)) (some (k1 : ℚ)) Crop.maintain_data axes
          order).rows - 1) / 2 = max k0 (A.rows - 1 - k0)) ∧
    (axes.contains 1 = true →
      (set_center A (some (k0 : ℚ)) (some (k1 : ℚ)) Crop.maintain_data axes
          order).cols = 2 * max k1 (A.cols - 1 - k1) + 1 ∧
      (set_center A (some (k0 : ℚ)) (some (k1 : ℚ)) Crop.maintain_data axes
          order).cols % 2 = 1 ∧
      ((set_center A (some (k0 : ℚ)) (some (k1 : ℚ)) Crop.maintain_data axes
          order).cols - 1) / 2 = max k1 (A.cols - 1 - k1)) ∧
    (axes.contains 0 = true → axes.contains 1 = true →
      (set_center A (some (k0 : ℚ)) (some (k1 : ℚ)) Crop.maintain_data axes
          order).px (max k0 (A.rows - 1 - k0)) (max k1 (A.cols - 1 - k1)) =
        A.px k0 k1) := by
  refine ⟨?_, ?_, ?_, ?_, ?_, ?_⟩
  · intro hc0
    rw [set_center_natCast_vr, vrCrop_rows A _ _ k0 k1 h0, if_pos hc0]
    exact ⟨rfl, by omega, by omega⟩
  · intro hc1
    rw [set_center_natCast_vr, vrCrop_cols A _ _ k0 k1 h1, if_pos hc1]
    exact ⟨rfl, by omega, by omega⟩
  · intro hc0 hc1
    rw [set_center_natCast_vr, hc0, hc1, vrCrop_px_tt A k0 k1 h0 h1]
    have e0 : k0 - min k0 (A.rows - 1 - k0) + min k0 (A.rows - 1 - k0) = k0 := by
      omega
    have e1 : k1 - min k1 (A.cols - 1 - k1) + min k1 (A.cols - 1 - k1) = k1 := by
      omega
    rw [e0, e1]
  · intro hc0
    rw [set_center_natCast_md, mdPad_rows A _ _ k0 k1 h0, if_pos hc0]
    exact ⟨rfl, by omega, by omega⟩
  · intro hc1
    rw [set_center_natCast_md, mdPad_cols A _ _ k0 k1 h1, if_pos hc1]
    exact ⟨rfl, by omega, by omega⟩
  · intro hc0 hc1
    rw [set_center_natCast_md, hc0, hc1, mdPad_px_tt A k0 k1 h0 h1,
      if_pos (by omega)]
    have e0 : max k0 (A.rows - 1 - k0) - (max k0 (A.rows - 1 - k0) - k0) = k0 := by
      omega
    have e1 : max k1 (A.cols - 1 - k1) - (max k1 (A.cols - 1 - k1) - k1) = k1 := by
      omega
    rw [e0, e1]

/-- Witness for the amended C10 at a concrete image and in-bounds origin. -/
theorem claim_C10_witness :
    (set_center (probeImg 5 7) (some ((1 : ℕ) : ℚ)) (some ((3 : ℕ) : ℚ))
      Crop.valid_region [0, 1] 3).rows % 2 = 1 ∧
    (set_center (probeImg 5 7) (some ((1 : ℕ) : ℚ)) (some ((3 : ℕ) : ℚ))
      Crop.maintain_data [0, 1] 3).rows % 2 = 1 := by
  have h := claim_C10 (probeImg 5 7) 1 3 [0, 1] 3 (by decide) (by decide)
  exact ⟨(h.1 rfl).2.1, (h.2.2.2.1 rfl).2.1⟩

/-- C2 (code bug evaluation): `center_image` with `square=True` but
`odd_size=False` on a 3×6 image returns a 3×4 image — not square, although
the claim (and the function's own docstring) promises a square result.  The
column trim `IM[:, xs:-xs]` with `xs = (cols - rows) // 2` removes only
`2·xs` columns, which cannot reach squareness when `cols - rows` is odd;
odd-size preprocessing normally hides this, but `odd_size=False` exposes it. -/
theorem claim_C2 :
    (center_image (probeImg 3 6) (some ((1 : ℕ) : ℚ)) (some ((2 : ℕ) : ℚ))
      false true [0, 1] Crop.maintain_size).rows = 3 ∧
    (center_image (probeImg 3 6) (some ((1 : ℕ) : ℚ)) (some ((2 : ℕ) : ℚ))
      false true [0, 1] Crop.maintain_size).cols = 4 ∧
    (3 : ℕ) ≠ 4 := by
  refine ⟨?_, ?_, by decide⟩ <;>
    · unfold center_image
      rw [set_center_natCast_ms]
      decide

/-- Counterexample to C3 as stated: on a 5×5 image with only axis 1
requested (successful fit with zero shift), `find_origin_by_slice` returns
`(2, 2)`, while the claim predicts that the unrequested row coordinate equals
the slice-extractor centre `axisSlicesCenter 5 = 5 // 2 + 5 % 2 = 3`.  The
function uses `rows // 2`, not the `axis_slices` convention. -/
theorem claim_C3_counterexample :
    find_origin_by_slice (probeImg 5 5) [1] ⟨true, 0⟩ ⟨true, 0⟩ =
      Except.ok ((2 : ℚ), (2 : ℚ)) ∧
    axisSlicesCenter 5 = 3 ∧ (2 : ℚ) ≠ (3 : ℚ) := by
  refine ⟨?_, rfl, by norm_num⟩
  simp [find_origin_by_slice, probeImg]

/-- C3 (amended): for every image, when the minimizer reports success on each
requested axis, `find_origin_by_slice` returns the origin
`(r2 - rowOffset, c2 - colOffset)` measured from the floor centre
`r2 = rows // 2`, `c2 = cols // 2` (not the `rows // 2 + rows % 2` convention
of `axis_slices`, as the counterexample forces), where each requested axis
has offset `-s/2` for the minimizing shift `s` and an unrequested axis keeps
offset `0`, so its coordinate is exactly `r2` (resp. `c2`). -/
theorem claim_C3 (IM : Image) (axis : List ℕ) (f0 f1 : FitResult)
    (h0 : axis.contains 0 = true → f0.success = true)
    (h1 : axis.contains 1 = true → f1.success = true) :
    find_origin_by_slice IM axis f0 f1 =
      Except.ok
        (((IM.rows / 2 : ℕ) : ℚ) -
          (if axis.contains 0 then -f0.x / 2 else 0),
         ((IM.cols / 2 : ℕ) : ℚ) -
          (if axis.contains 1 then -f1.x / 2 else 0)) := by
  unfold find_origin_by_slice
  cases hc0 : axis.contains 0 with
  | false => cases hc1 : axis.contains 1 with
    | false => simp
    | true => simp [h1 hc1]
  | true => cases hc1 : axis.contains 1 with
    | false => simp [h0 hc0]
    | true => simp [h0 hc0, h1 hc1]

/-- Witness for the amended C3 at a concrete image and fit results. -/
theorem claim_C3_witness :
    find_origin_by_slice (probeImg 4 6) [0, 1] ⟨true, 1⟩ ⟨true, 0⟩ =
      Except.ok ((5/2 : ℚ), (3 : ℚ)) := by
  have h := claim_C3 (probeImg 4 6) [0, 1] ⟨true, 1⟩ ⟨true, 0⟩
    (fun _ => rfl) (fun _ => rfl)
  rw [h]
  norm_num [probeImg]

/-- C8: `find_origin_by_slice` raises (returns an error) if and only if the
bounded minimizer reports non-convergence on some requested axis; on failure
no offset is defaulted — the whole call fails and the error carries the
failing axis and the minimizer's diagnostic result (axis 0 is checked
first). -/
theorem claim_C8 (IM : Image) (axis : List ℕ) (f0 f1 : FitResult) :
    ((∃ e, find_origin_by_slice IM axis f0 f1 = Except.error e) ↔
      (axis.contains 0 = true ∧ f0.success = false) ∨
        (axis.contains 1 = true ∧ f1.success = false)) ∧
    (axis.contains 0 = true → f0.success = false →
      find_origin_by_slice IM axis f0 f1 = Except.error ⟨0, f0⟩) ∧
    ((axis.contains 0 = true → f0.success = true) →
      axis.contains 1 = true → f1.success = false →
      find_origin_by_slice IM axis f0 f1 = Except.error ⟨1, f1⟩) := by
  unfold find_origin_by_slice
  cases hc0 : axis.contains 0 <;> cases hc1 : axis.contains 1 <;>
    cases hs0 : f0.success <;> cases hs1 : f1.success <;>
      simp [hc0, hc1, hs0, hs1]

/-- Witness for C8: a failing vertical fit produces the axis-0 error. -/
theorem claim_C8_witness :
    find_origin_by_slice (probeImg 5 5) [0, 1] ⟨false, 0⟩ ⟨true, 0⟩ =
      Except.error ⟨0, ⟨false, 0⟩⟩ :=
  (claim_C8 (probeImg 5 5) [0, 1] ⟨false, 0⟩ ⟨true, 0⟩).2.1 rfl rfl

/-- Counterexample to C7 as stated: with `origin = (5/2, 3)`, `axes = [1]`
and `order = 3` on a 5×5 image, the only active axis (axis 1) has zero
fractional remainder, yet the effective order stays 3 — the downgrade to 0
does not happen, because the fractional part of the axis-0 coordinate
(specified but excluded from the axes set) is also consulted. -/
theorem claim_C7_counterexample :
    fracZero 5 (some ((3 : ℕ) : ℚ)) ∧
    ¬(([1] : List ℕ).contains 0 = true) ∧
    effOrder 5 5 (some (5/2 : ℚ)) (some ((3 : ℕ) : ℚ)) [1] 3 = 3 ∧
    (3 : ℕ) ≠ 0 := by
  refine ⟨?_, by decide, ?_, by decide⟩
  · show pyFrac 5 ((3 : ℕ) : ℚ) = 0
    rw [pyFrac, normCoord_of_nonneg (by positivity), pyInt_natCast]
    norm_num
  · have hs0 : pyFrac 5 (5/2 : ℚ) = 1/2 := by
      rw [pyFrac, normCoord_of_nonneg (by norm_num)]
      rw [show pyInt (5/2 : ℚ) = 2 by
        rw [pyInt, if_neg (by norm_num)]
        rw [show ⌊(5/2 : ℚ)⌋ = 2 by norm_num]]
      norm_num
    have hs1 : pyFrac 5 ((3 : ℕ) : ℚ) = 0 := by
      rw [pyFrac, normCoord_of_nonneg (by positivity), pyInt_natCast]
      norm_num
    have e0 := normAxis_some_of_order_ne 3 5 (([1] : List ℕ).contains 0)
      (5/2 : ℚ) (by norm_num)
    have e1 := normAxis_some_of_order_ne 3 5 (([1] : List ℕ).contains 1)
      ((3 : ℕ) : ℚ) (by norm_num)
    show (scNorm 5 5 (some (5/2 : ℚ)) (some ((3 : ℕ) : ℚ)) [1] 3).2.2 = 3
    simp only [scNorm, e0, e1, hs0, hs1]
    rw [if_neg (by norm_num)]

/-- C7 (amended): the interpolation order is forced to 0 exactly when the
initial order is 0 or the fractional remainder is zero on every specified
axis (coordinate not `None`) — including axes excluded from the axes set,
whose fractional parts are also consulted, as the counterexample forces;
moreover the downgrade decision does not depend on the axes set at all. -/
theorem claim_C7 (n0 n1 : ℕ) (o0 o1 : Option ℚ) (axes : List ℕ) (order : ℕ) :
    (effOrder n0 n1 o0 o1 axes order = 0 ↔
      order = 0 ∨ (fracZero n0 o0 ∧ fracZero n1 o1)) ∧
    (∀ axes2 : List ℕ,
      effOrder n0 n1 o0 o1 axes order = effOrder n0 n1 o0 o1 axes2 order) := by
  constructor
  · show (if (normAxis order n0 (axes.contains 0) o0).sub = 0 ∧
        (normAxis order n1 (axes.contains 1) o1).sub = 0 then 0 else order) = 0 ↔ _
    rw [normAxis_sub, normAxis_sub]
    by_cases ho : order = 0
    · simp [ho]
    · rw [if_neg ho, if_neg ho]
      cases o0 <;> cases o1 <;> simp [fracZero, ho]
  · intro axes2
    show (if (normAxis order n0 (axes.contains 0) o0).sub = 0 ∧
        (normAxis order n1 (axes.contains 1) o1).sub = 0 then 0 else order) =
      (if (normAxis order n0 (axes2.contains 0) o0).sub = 0 ∧
        (normAxis order n1 (axes2.contains 1) o1).sub = 0 then 0 else order)
    simp only [normAxis_sub]

/-- Witness for the amended C7: an all-integer origin downgrades the order. -/
theorem claim_C7_witness :
    effOrder 4 4 (some ((1 : ℕ) : ℚ)) (some ((2 : ℕ) : ℚ)) [0, 1] 3 = 0 := by
  refine (claim_C7 4 4 (some ((1 : ℕ) : ℚ)) (some ((2 : ℕ) : ℚ)) [0, 1] 3).1.mpr
    (Or.inr ⟨?_, ?_⟩)
  · show pyFrac 4 ((1 : ℕ) : ℚ) = 0
    rw [pyFrac, normCoord_of_nonneg (by positivity), pyInt_natCast]
    norm_num
  · show pyFrac 4 ((2 : ℕ) : ℚ) = 0
    rw [pyFrac, normCoord_of_nonneg (by positivity), pyInt_natCast]
    norm_num

end AbelCenter
